import Mathlib

/-!
# Mount option parsing (`opts/mount.go`)

A shallow embedding of `MountOpt.Set`, `MountOpt.String` and `MountOpt.Value`
of package `opts`, and theorems about them.

Go strings are modelled by Lean strings (sequences of characters); the keys,
separators and quotes the code inspects are all ASCII.  A Go `error` is
modelled by its message, and `fmt.Errorf` / `fmt.Sprintf` with `%s` by
concatenation.  The library functions the code calls that have no short
closed description (the CSV reader, Unicode lower-casing and the
floating-point size parser of `go-units`) are parameters of the embedding,
collected in `Lib`, so the general theorems hold whatever these functions
return; `strings.SplitN`, `strconv.ParseBool` and `strconv.Atoi` are modelled
directly.  `goLib` fills `Lib` with a model of the CSV reader and with ASCII
lower-casing, to evaluate `Set` on concrete records.

The loop body of `Set` is `MountOpt.setField`, its `switch` on a `key=value`
field `MountOpt.setValue`, the loop `MountOpt.setFields`, the checks after the
loop `MountOpt.validate`, and the whole of `Set` up to the `append`
`MountOpt.parse`.
-/

/-! ## Library functions -/

deriving instance DecidableEq for Except

namespace strings

/-- First occurrence of `sep` in `s`: the text before it and the text after it. -/
def cut (sep : Char) : List Char → Option (List Char × List Char)
  | [] => none
  | c :: cs =>
    if c = sep then some ([], cs)
    else match cut sep cs with
      | none => none
      | some (a, b) => some (c :: a, b)

/-- Go `strings.SplitN(s, sep, n)` for a one-character separator and `n ≥ 0`:
at most `n` substrings, the last one being the unsplit remainder; `n = 0`
gives no substring. -/
def splitN (sep : Char) : Nat → List Char → List (List Char)
  | 0, _ => []
  | 1, s => [s]
  | n + 2, s =>
    match cut sep s with
    | none => [s]
    | some (a, b) => a :: splitN sep (n + 1) b

/-- Go `strings.SplitN` on strings. -/
def SplitN (s : String) (sep : Char) (n : Nat) : List String :=
  (splitN sep n s.data).map String.mk

/-- ASCII lower-casing; Go `strings.ToLower` agrees with it on ASCII text. -/
def ToLower (s : String) : String :=
  String.mk (s.data.map Char.toLower)

/-- Go `strings.Join`. -/
def Join : List String → String → String
  | [], _ => ""
  | [a], _ => a
  | a :: b :: rest, sep => a ++ sep ++ Join (b :: rest) sep

end strings

namespace strconv

/-- Go `strconv.ParseBool`: `none` stands for the syntax error. -/
def ParseBool (str : String) : Option Bool :=
  if str = "1" ∨ str = "t" ∨ str = "T" ∨ str = "TRUE" ∨ str = "true" ∨ str = "True" then
    some true
  else if str = "0" ∨ str = "f" ∨ str = "F" ∨ str = "FALSE" ∨ str = "false"
      ∨ str = "False" then
    some false
  else none

/-- Value of a string of decimal digits (Go `ParseUint` in base 10, without the
range check). -/
def digitsValue (ds : List Char) : Nat :=
  ds.foldl (fun acc c => 10 * acc + (c.toNat - 48)) 0

/-- Go `strconv.Atoi` where `int` has 64 bits: an optional sign `+` or `-`,
then one or more decimal digits, the value within `-2^63 .. 2^63 - 1`; `none`
stands for the syntax error and for the range error. -/
def Atoi (s : String) : Option Int :=
  let signed : Bool × List Char :=
    match s.data with
    | '+' :: rest => (false, rest)
    | '-' :: rest => (true, rest)
    | rest => (false, rest)
  let neg := signed.1
  let ds := signed.2
  if ds = [] ∨ ds.all Char.isDigit = false then none
  else
    let un := digitsValue ds
    if neg = false ∧ un ≥ 2 ^ 63 then none
    else if neg = true ∧ un > 2 ^ 63 then none
    else if neg then some (-(un : Int)) else some (un : Int)

end strconv

namespace csv

/-- Go `Reader.readRune`: a carriage return followed by a line feed is read as
one line feed; a carriage return that ends the input is read as the end. -/
def foldCR : List Char → List Char
  | [] => []
  | c :: cs =>
    if c = '\r' then
      match cs with
      | [] => []
      | d :: _ => if d = '\n' then foldCR cs else '\r' :: foldCR cs
    else c :: foldCR cs

/-- Position of the record reader inside a record. -/
inductive Pos where
  | fieldStart (recordStart : Bool)
  | bare
  | quoted
  | afterQuote
  deriving DecidableEq, Repr

/-- Go `Reader.parseRecord` / `parseField` with the default settings (comma
separator, no comment character, no lazy quotes, no trimming), as one pass
over the characters: `fields` holds the finished fields and `cur` the
characters of the field being read, both in reverse.  Blank lines before the
record are skipped.  The line and column that Go puts in front of a parse
error are not modelled. -/
def readFrom : Pos → List String → List Char → List Char → Except String (List String)
  | .fieldStart true, _, _, [] => .error "EOF"
  | .fieldStart false, fields, _, [] => .ok ("" :: fields).reverse
  | .bare, fields, cur, [] => .ok (String.mk cur.reverse :: fields).reverse
  | .quoted, _, _, [] => .error "extraneous \" in field"
  | .afterQuote, fields, cur, [] => .ok (String.mk cur.reverse :: fields).reverse
  | .fieldStart recordStart, fields, _, c :: cs =>
    if c = ',' then readFrom (.fieldStart false) ("" :: fields) [] cs
    else if c = '\n' then
      if recordStart then readFrom (.fieldStart true) fields [] cs
      else .ok ("" :: fields).reverse
    else if c = '"' then readFrom .quoted fields [] cs
    else readFrom .bare fields [c] cs
  | .bare, fields, cur, c :: cs =>
    if c = ',' then readFrom (.fieldStart false) (String.mk cur.reverse :: fields) [] cs
    else if c = '\n' then .ok (String.mk cur.reverse :: fields).reverse
    else if c = '"' then .error "bare \" in non-quoted-field"
    else readFrom .bare fields (c :: cur) cs
  | .quoted, fields, cur, c :: cs =>
    if c = '"' then readFrom .afterQuote fields cur cs
    else readFrom .quoted fields (c :: cur) cs
  | .afterQuote, fields, cur, c :: cs =>
    if c = ',' then readFrom (.fieldStart false) (String.mk cur.reverse :: fields) [] cs
    else if c = '\n' then .ok (String.mk cur.reverse :: fields).reverse
    else if c = '"' then readFrom .quoted fields ('"' :: cur) cs
    else .error "extraneous \" in field"

/-- Go `csv.NewReader(strings.NewReader(value)).Read()`: the first record of
`value`. -/
def Read (value : String) : Except String (List String) :=
  readFrom (.fieldStart true) [] [] (foldCR value.data)

end csv

/-- The library functions `MountOpt.Set` calls that are taken as parameters. -/
structure Lib where
  /-- `csv.NewReader(strings.NewReader(value)).Read()`: the fields of the first
  record, or the error. -/
  csvRead : String → Except String (List String)
  /-- `strings.ToLower`. -/
  ToLower : String → String
  /-- `units.RAMInBytes`: the size as an `int64`, or `none` for an error. -/
  RAMInBytes : String → Option Int

/-- The library with the modelled CSV reader and ASCII lower-casing, for a given
size parser. -/
def goLib (ram : String → Option Int) : Lib :=
  { csvRead := csv.Read, ToLower := strings.ToLower, RAMInBytes := ram }

/-- A size parser that rejects every string; used where no `max-bandwidth`
field occurs. -/
def noRAM : String → Option Int := fun _ => none

/-! ## Data model (`api/types/mount`) -/

namespace mounttypes

/-- Modelled from the spec: the constant `TypeBind` of the mount kind (a string
type), declared outside this package; the kind of a bind mount is `bind`. -/
def TypeBind : String := "bind"

/-- Modelled from the spec: the constant `TypeVolume`, declared outside this
package; the default kind is `volume`. -/
def TypeVolume : String := "volume"

/-- A Go `map[string]string`, as an association list with unique keys. -/
abbrev StringMap := List (String × String)

/-- Map assignment `m[k] = v`: an existing entry for `k` is overwritten. -/
def StringMap.set : StringMap → String → String → StringMap
  | [], k, v => [(k, v)]
  | (k0, v0) :: rest, k, v =>
    if k0 = k then (k, v) :: rest else (k0, v0) :: StringMap.set rest k v

/-- Map lookup. -/
def StringMap.get : StringMap → String → Option String
  | [], _ => none
  | (k0, v0) :: rest, k => if k0 = k then some v0 else StringMap.get rest k

/-- Modelled from the spec: the struct `Driver` (driver name and driver
options), declared outside this package; `Options` is `none` for a nil map. -/
structure Driver where
  Name : String
  Options : Option StringMap
  deriving DecidableEq, Repr

/-- Modelled from the spec: the struct `VolumeOptions`, declared outside this
package; `DriverConfig` is `none` for a nil pointer. -/
structure VolumeOptions where
  NoCopy : Bool
  Labels : StringMap
  DriverConfig : Option Driver
  deriving DecidableEq, Repr

/-- Modelled from the spec: the struct `BindOptions`, declared outside this
package. -/
structure BindOptions where
  Propagation : String
  deriving DecidableEq, Repr

/-- Modelled from the spec: the struct `Mount`, declared outside this package;
the field `Type_` is the Go field `Type` (the kind), and the two option
fields are `none` for a nil pointer.  The two limits are `uint64`. -/
structure Mount where
  Type_ : String
  Source : String
  Target : String
  ReadOnly : Bool
  BindOptions : Option BindOptions
  VolumeOptions : Option VolumeOptions
  MaxBandwidth : Nat
  MaxIOps : Nat
  deriving DecidableEq, Repr

/-- The zero value `mounttypes.Mount{}`. -/
def Mount.zero : Mount :=
  { Type_ := "", Source := "", Target := "", ReadOnly := false, BindOptions := none,
    VolumeOptions := none, MaxBandwidth := 0, MaxIOps := 0 }

end mounttypes

open mounttypes

/-- Conversion `uint64(n)` of a signed 64-bit integer. -/
def uint64 (n : Int) : Nat := (n % 2 ^ 64).toNat

/-! ## `MountOpt` -/

/-- The accumulator `MountOpt`. -/
structure MountOpt where
  values : List Mount
  deriving DecidableEq, Repr

namespace MountOpt

/-- The closure `volumeOptions` of `Set`: the volume options of `mount` after the
call (created with an empty label map if nil, and given a driver configuration
if it has none), with that driver configuration. -/
def volumeOptions (mount : Mount) : VolumeOptions × Driver :=
  let vo : VolumeOptions :=
    match mount.VolumeOptions with
    | none => { NoCopy := false, Labels := [], DriverConfig := none }
    | some vo => vo
  let d : Driver :=
    match vo.DriverConfig with
    | none => { Name := "", Options := none }
    | some d => d
  ({ vo with DriverConfig := some d }, d)

/-- The closure `bindOptions` of `Set`: the bind options of `mount` after the
call (created if nil). -/
def bindOptions (mount : Mount) : BindOptions :=
  match mount.BindOptions with
  | none => { Propagation := "" }
  | some b => b

/-- The closure `setValueOnMap` of `Set`. -/
def setValueOnMap (target : StringMap) (value : String) : StringMap :=
  match strings.SplitN value '=' 2 with
  | [_] => target.set value ""
  | p0 :: p1 :: _ => target.set p0 p1
  | [] => target

/-- The `switch key` on a field `key=value` in the loop of `Set` (lines 77 to
121): the mount after the field, or the error `Set` returns at it. -/
def setValue (lib : Lib) (mount : Mount) (field key value : String) : Except String Mount :=
  if key = "type" then
    .ok { mount with Type_ := lib.ToLower value }
  else if key = "source" ∨ key = "src" then
    .ok { mount with Source := value }
  else if key = "target" ∨ key = "dst" ∨ key = "destination" then
    .ok { mount with Target := value }
  else if key = "readonly" ∨ key = "ro" then
    match strconv.ParseBool value with
    | none => .error ("invalid value for " ++ key ++ ": " ++ value)
    | some b => .ok { mount with ReadOnly := b }
  else if key = "max-bandwidth" then
    match lib.RAMInBytes value with
    | none => .error ("invalid value for " ++ key ++ ": " ++ value)
    | some bandwidth => .ok { mount with MaxBandwidth := uint64 bandwidth }
  else if key = "max-iops" then
    match strconv.Atoi value with
    | none => .error ("invalid value for " ++ key ++ ": " ++ value)
    | some maxiops => .ok { mount with MaxIOps := uint64 maxiops }
  else if key = "bind-propagation" then
    .ok { mount with
      BindOptions := some { (bindOptions mount) with Propagation := lib.ToLower value } }
  else if key = "volume-nocopy" then
    match strconv.ParseBool value with
    | none => .error ("invalid value for populate: " ++ value)
    | some b =>
      .ok { mount with VolumeOptions := some { (volumeOptions mount).1 with NoCopy := b } }
  else if key = "volume-label" then
    let vo := (volumeOptions mount).1
    .ok { mount with
      VolumeOptions := some { vo with Labels := setValueOnMap vo.Labels value } }
  else if key = "volume-driver" then
    let vd := volumeOptions mount
    .ok { mount with
      VolumeOptions := some { vd.1 with DriverConfig := some { vd.2 with Name := value } } }
  else if key = "volume-opt" then
    let vd := volumeOptions mount
    let options : StringMap :=
      match vd.2.Options with
      | none => []
      | some o => o
    .ok { mount with
      VolumeOptions := some { vd.1 with
        DriverConfig := some { vd.2 with Options := some (setValueOnMap options value) } } }
  else
    .error ("unexpected key '" ++ key ++ "' in '" ++ field ++ "'")

/-- One iteration of the loop over the fields in `Set` (lines 58 to 122):
the mount after the field, or the error `Set` returns at it. -/
def setField (lib : Lib) (mount : Mount) (field : String) : Except String Mount :=
  let parts := strings.SplitN field '=' 2
  let key := lib.ToLower (parts.headD "")
  if parts.length = 1 ∧ (key = "readonly" ∨ key = "ro") then
    .ok { mount with ReadOnly := true }
  else if parts.length = 1 ∧ key = "volume-nocopy" then
    .ok { mount with VolumeOptions := some { (volumeOptions mount).1 with NoCopy := true } }
  else if parts.length ≠ 2 then
    .error ("invalid field '" ++ field ++ "' must be a key=value pair")
  else
    setValue lib mount field key (parts.getD 1 "")

/-- The loop over the fields in `Set`: the fields are processed in order and the
first error ends the loop. -/
def setFields (lib : Lib) : Mount → List String → Except String Mount
  | mount, [] => .ok mount
  | mount, field :: rest =>
    match setField lib mount field with
    | .error e => .error e
    | .ok mount1 => setFields lib mount1 rest

/-- The final checks of `Set` (lines 124 to 137). -/
def validate (mount : Mount) : Except String Mount :=
  if mount.Type_ = "" then
    .error "type is required"
  else if mount.Target = "" then
    .error "target is required"
  else if mount.Type_ = TypeBind ∧ mount.VolumeOptions ≠ none then
    .error ("cannot mix 'volume-*' options with mount type '" ++ TypeBind ++ "'")
  else if mount.Type_ = TypeVolume ∧ mount.BindOptions ≠ none then
    .error ("cannot mix 'bind-*' options with mount type '" ++ TypeVolume ++ "'")
  else
    .ok mount

/-- The mount that `Set` builds from `value` (lines 20 to 137): the local
variable `mount` when line 139 is reached, or the error returned before. -/
def parse (lib : Lib) (value : String) : Except String Mount :=
  match lib.csvRead value with
  | .error err => .error err
  | .ok fields =>
    match setFields lib { Mount.zero with Type_ := TypeVolume } fields with
    | .error e => .error e
    | .ok mount => validate mount

/-- The method `Set`: the accumulator after the call and the error returned
(`none` for nil). -/
def Set (lib : Lib) (m : MountOpt) (value : String) : MountOpt × Option String :=
  match parse lib value with
  | .error e => (m, some e)
  | .ok mount => ({ values := m.values ++ [mount] }, none)

/-- The method `Value`. -/
def Value (m : MountOpt) : List Mount := m.values

/-- The method `String`: the kind, source and target of each mount, separated by
single spaces, the mounts joined with a comma and a space. -/
def String (m : MountOpt) : String :=
  strings.Join (m.values.map fun mount =>
    mount.Type_ ++ " " ++ mount.Source ++ " " ++ mount.Target) ", "

end MountOpt

/-! ## The fields of a record, as the claims describe them -/

/-- The key of a field: the text before its first `=`, lower-cased. -/
def fieldKey (lib : Lib) (field : String) : String :=
  lib.ToLower ((strings.SplitN field '=' 2).headD "")

/-- The value of a field: the text after its first `=`, if it has one. -/
def fieldValue (field : String) : Option String :=
  (strings.SplitN field '=' 2).get? 1

/-- The keys that populate the volume options. -/
def isVolumeKey (key : String) : Prop :=
  key = "volume-nocopy" ∨ key = "volume-label" ∨ key = "volume-driver" ∨ key = "volume-opt"

instance (key : String) : Decidable (isVolumeKey key) := by
  unfold isVolumeKey
  infer_instance

/-- At least one volume-nocopy, volume-label, volume-driver or volume-opt field appears. -/
def hasVolumeField (lib : Lib) (fields : List String) : Prop :=
  ∃ f ∈ fields, isVolumeKey (fieldKey lib f)

/-- At least one bind-propagation field appears. -/
def hasBindField (lib : Lib) (fields : List String) : Prop :=
  ∃ f ∈ fields, fieldKey lib f = "bind-propagation"

instance (lib : Lib) (fields : List String) : Decidable (hasVolumeField lib fields) := by
  unfold hasVolumeField
  infer_instance

instance (lib : Lib) (fields : List String) : Decidable (hasBindField lib fields) := by
  unfold hasBindField
  infer_instance

/-- The kind after the fields, starting from `kind`: the lower-cased value of the
last `type` field, else `kind`. -/
def kindAfter (lib : Lib) : String → List String → String
  | kind, [] => kind
  | kind, f :: rest =>
    if fieldKey lib f = "type" then kindAfter lib (lib.ToLower ((fieldValue f).getD "")) rest
    else kindAfter lib kind rest

/-- The final kind of a record: the lower-cased value of its last `type` field,
else the default `volume`. -/
def finalKind (lib : Lib) (fields : List String) : String :=
  kindAfter lib TypeVolume fields

/-- The keys that set the target. -/
def isTargetKey (key : String) : Prop :=
  key = "target" ∨ key = "dst" ∨ key = "destination"

instance (key : String) : Decidable (isTargetKey key) := by
  unfold isTargetKey
  infer_instance

/-- The target after the fields, starting from `target`: the value of the last
target, dst or destination field, else `target`. -/
def targetAfter (lib : Lib) : String → List String → String
  | target, [] => target
  | target, f :: rest =>
    if isTargetKey (fieldKey lib f) then targetAfter lib ((fieldValue f).getD "") rest
    else targetAfter lib target rest

/-- The final target of a record: the value of its last target, dst or
destination field, else the empty string. -/
def finalTarget (lib : Lib) (fields : List String) : String :=
  targetAfter lib "" fields

/-- The keys that the `switch` of `Set` recognizes. -/
def isRecognizedKey (key : String) : Prop :=
  key = "type" ∨ (key = "source" ∨ key = "src") ∨ isTargetKey key ∨
    (key = "readonly" ∨ key = "ro") ∨ key = "max-bandwidth" ∨ key = "max-iops" ∨
    key = "bind-propagation" ∨ isVolumeKey key

instance (key : String) : Decidable (isRecognizedKey key) := by
  unfold isRecognizedKey
  infer_instance

/-- The text `s` occurs in the message `e`, character for character. -/
def occursIn (s e : String) : Prop := s.data <:+: e.data

instance (s e : String) : Decidable (occursIn s e) := by
  unfold occursIn
  infer_instance

/-- The keys that set the source. -/
def isSourceKey (key : String) : Prop :=
  key = "source" ∨ key = "src"

instance (key : String) : Decidable (isSourceKey key) := by
  unfold isSourceKey
  infer_instance

/-- The keys that set `ReadOnly`. -/
def isReadOnlyKey (key : String) : Prop :=
  key = "readonly" ∨ key = "ro"

instance (key : String) : Decidable (isReadOnlyKey key) := by
  unfold isReadOnlyKey
  infer_instance

/-- The label map of the volume options of a mount, empty when the mount has none. -/
def labelsOf : Option VolumeOptions → StringMap
  | none => []
  | some vo => vo.Labels

/-- The driver options of the volume options of a mount: the option map of their
driver configuration, empty when one of the three is nil. -/
def driverOptionsOf : Option VolumeOptions → StringMap
  | none => []
  | some vo =>
    match vo.DriverConfig with
    | none => []
    | some d => d.Options.getD []

/-- The values of the fields of a record whose lower-cased key is `key`, in the
order of the record. -/
def valuesOf (lib : Lib) (key : String) (fields : List String) : List String :=
  fields.filterMap fun f => if fieldKey lib f = key then fieldValue f else none

/-- The sub-key of a map entry `k=v` or `k`: the text before its first `=`. -/
def entryKey (entry : String) : String :=
  (strings.SplitN entry '=' 2).headD ""

/-- The sub-value of a map entry: the text after its first `=`, empty when the
entry has no `=`. -/
def entryValue (entry : String) : String :=
  ((strings.SplitN entry '=' 2).get? 1).getD ""

/-- The value that a list of map entries, processed in order, gives the sub-key
`x`: the sub-value of the last entry whose sub-key is `x`, if there is one. -/
def lastEntry (x : String) : List String → Option String
  | [] => none
  | entry :: rest =>
    match lastEntry x rest with
    | some v => some v
    | none => if entryKey entry = x then some (entryValue entry) else none

/-- The fields `f` and `g` differ at most in the letter case of the key part: their
keys have the same lower-cased form, and both have the same value or both have
none. -/
def keyCaseVariant (lib : Lib) (f g : String) : Prop :=
  fieldKey lib f = fieldKey lib g ∧ fieldValue f = fieldValue g

instance (lib : Lib) (f g : String) : Decidable (keyCaseVariant lib f g) := by
  unfold keyCaseVariant
  infer_instance

/-- The messages `e` and `e1` are the same kind of error: they are equal, or they
are the missing-value error of two fields that differ in the case of the key,
or the unknown-key error of two such fields with the same lower-cased key. -/
def sameErrorKind (lib : Lib) (e e1 : String) : Prop :=
  e = e1 ∨ ∃ f g : String, keyCaseVariant lib f g ∧
    ((e = "invalid field '" ++ f ++ "' must be a key=value pair" ∧
        e1 = "invalid field '" ++ g ++ "' must be a key=value pair") ∨
      ∃ key : String, e = "unexpected key '" ++ key ++ "' in '" ++ f ++ "'" ∧
        e1 = "unexpected key '" ++ key ++ "' in '" ++ g ++ "'")

/-- Two outcomes of the loop agree up to the case of the keys: the same mount, or
errors of the same kind. -/
def sameOutcome (lib : Lib) (r r1 : Except String Mount) : Prop :=
  (∃ d, r = .ok d ∧ r1 = .ok d) ∨
    ∃ e e1 : String, r = .error e ∧ r1 = .error e1 ∧ sameErrorKind lib e e1

/-- The message `e` is the error of the loop body at the field `field`, in one of
its four forms: the missing-value error of a field with no `=`, which holds
the field; the unknown-key error of a field `k=v` with an unrecognized key,
which holds the lower-cased key and the field; the invalid-value error of a
field `k=v` with the key readonly, ro, max-bandwidth or max-iops, which holds
the lower-cased key and the value `v`; the invalid-value error of a field
`k=v` with the key volume-nocopy, of the form `invalid value for <name>: v`. -/
def errorOfField (lib : Lib) (field e : String) : Prop :=
  (fieldValue field = none ∧
    e = "invalid field '" ++ field ++ "' must be a key=value pair" ∧ occursIn field e) ∨
  ∃ v, fieldValue field = some v ∧
    ((¬ isRecognizedKey (fieldKey lib field) ∧
        e = "unexpected key '" ++ fieldKey lib field ++ "' in '" ++ field ++ "'" ∧
        occursIn (fieldKey lib field) e ∧ occursIn field e) ∨
      ((isReadOnlyKey (fieldKey lib field) ∨ fieldKey lib field = "max-bandwidth" ∨
          fieldKey lib field = "max-iops") ∧
        e = "invalid value for " ++ fieldKey lib field ++ ": " ++ v ∧
        occursIn (fieldKey lib field) e ∧ occursIn v e) ∨
      (fieldKey lib field = "volume-nocopy" ∧
        (∃ name : String, e = "invalid value for " ++ name ++ ": " ++ v) ∧ occursIn v e))

/-! ## Basic facts about the final checks and the accumulator -/

/-- The final checks return the mount they are given, unchanged. -/
theorem validate_ok_eq {mount d : Mount} (h : MountOpt.validate mount = .ok d) :
    d = mount := by
  unfold MountOpt.validate at h
  split_ifs at h
  exact (Except.ok.inj h).symm

/-- A mount that passes the final checks has a kind and a target. -/
theorem validate_ok_nonempty {mount d : Mount}
    (h : MountOpt.validate mount = .ok d) : d.Type_ ≠ "" ∧ d.Target ≠ "" := by
  have hd := validate_ok_eq h
  subst hd
  unfold MountOpt.validate at h
  split_ifs at h with h1 h2
  exact ⟨h1, h2⟩

/-- A mount that passes the final checks has no volume options when its kind is
`bind` and no bind options when its kind is `volume`. -/
theorem validate_ok_exclusive {mount d : Mount}
    (h : MountOpt.validate mount = .ok d) :
    (d.Type_ = TypeBind → d.VolumeOptions = none) ∧
      (d.Type_ = TypeVolume → d.BindOptions = none) := by
  have hd := validate_ok_eq h
  subst hd
  unfold MountOpt.validate at h
  split_ifs at h with h1 h2 h3 h4
  constructor
  · intro hb
    by_contra hv
    exact h3 ⟨hb, hv⟩
  · intro hvol
    by_contra hbo
    exact h4 ⟨hvol, hbo⟩

/-- A mount that `parse` returns has passed the final checks. -/
theorem parse_ok_validate {lib : Lib} {value : String} {d : Mount}
    (h : MountOpt.parse lib value = .ok d) : MountOpt.validate d = .ok d := by
  unfold MountOpt.parse at h
  split at h
  · exact absurd h (by simp)
  · split at h
    · exact absurd h (by simp)
    · have hd := validate_ok_eq h
      subst hd
      exact h

/-- When `Set` returns no error, `parse` has returned a mount and `Set` has appended it. -/
theorem Set_ok_iff (lib : Lib) (m : MountOpt) (value : String) :
    (MountOpt.Set lib m value).2 = none ↔
      ∃ d, MountOpt.parse lib value = .ok d ∧
        MountOpt.Set lib m value = ({ values := m.values ++ [d] }, none) := by
  unfold MountOpt.Set
  cases hp : MountOpt.parse lib value with
  | error e => simp
  | ok d => simp

/-- When `Set` returns an error, it is the error of `parse` and the accumulator is unchanged. -/
theorem Set_error_iff (lib : Lib) (m : MountOpt) (value e : String) :
    (MountOpt.Set lib m value).2 = some e ↔
      MountOpt.parse lib value = .error e ∧ MountOpt.Set lib m value = (m, some e) := by
  unfold MountOpt.Set
  cases hp : MountOpt.parse lib value with
  | error e1 => simp
  | ok d => simp

/-! ## C1 to C3: the accumulator -/

/-- C1: when `Set` returns no error, the accumulator afterwards is the one before
with one descriptor appended, and that descriptor has a non-empty kind and a
non-empty target. -/
theorem C1_set_ok_kind_target_nonempty (lib : Lib) (m : MountOpt) (value : String)
    (h : (MountOpt.Set lib m value).2 = none) :
    ∃ d, (MountOpt.Set lib m value).1.Value = m.Value ++ [d] ∧
      d.Type_ ≠ "" ∧ d.Target ≠ "" := by
  obtain ⟨d, hp, hs⟩ := (Set_ok_iff lib m value).mp h
  refine ⟨d, ?_, validate_ok_nonempty (parse_ok_validate hp)⟩
  rw [hs]
  rfl

/-- C1 at the input `target=/b` on the empty accumulator. -/
theorem C1_set_ok_kind_target_nonempty_witness :
    (MountOpt.Set (goLib noRAM) ⟨[]⟩ "target=/b").2 = none ∧
      ∃ d, (MountOpt.Set (goLib noRAM) ⟨[]⟩ "target=/b").1.Value
          = (MountOpt.mk []).Value ++ [d] ∧ d.Type_ ≠ "" ∧ d.Target ≠ "" :=
  ⟨by decide, C1_set_ok_kind_target_nonempty (goLib noRAM) ⟨[]⟩ "target=/b" (by decide)⟩

/-- C2: when `Set` returns an error, `Value()` after the call is `Value()` before
the call: nothing is appended and no entry is changed. -/
theorem C2_set_error_keeps_values (lib : Lib) (m : MountOpt) (value e : String)
    (h : (MountOpt.Set lib m value).2 = some e) :
    (MountOpt.Set lib m value).1.Value = m.Value := by
  rw [((Set_error_iff lib m value e).mp h).2]

/-- C2 at the input `type=bind,volume-label=x` on an accumulator with one entry. -/
theorem C2_set_error_keeps_values_witness :
    (MountOpt.Set (goLib noRAM) ⟨[Mount.zero]⟩ "type=bind,volume-label=x").2
        = some "target is required" ∧
      (MountOpt.Set (goLib noRAM) ⟨[Mount.zero]⟩ "type=bind,volume-label=x").1.Value
        = (MountOpt.mk [Mount.zero]).Value :=
  ⟨by decide, C2_set_error_keeps_values (goLib noRAM) ⟨[Mount.zero]⟩
    "type=bind,volume-label=x" "target is required" (by decide)⟩

/-- C3: when `Set` succeeds on `s` from the accumulator `a`, there is a descriptor
`d` such that from every accumulator `b` the call `Set(s)` succeeds and leaves
`b` followed by `d`; in particular `Value()` after the call on `a` is `a`
followed by `d`, and after a second call `Set(s)` it is `a` followed by `d, d`. -/
theorem C3_set_appends_same_descriptor (lib : Lib) (a : MountOpt) (s : String)
    (h : (MountOpt.Set lib a s).2 = none) :
    ∃ d, (∀ b : MountOpt, MountOpt.Set lib b s = ({ values := b.values ++ [d] }, none)) ∧
      (MountOpt.Set lib a s).1.Value = a.Value ++ [d] ∧
      (MountOpt.Set lib (MountOpt.Set lib a s).1 s).2 = none ∧
      (MountOpt.Set lib (MountOpt.Set lib a s).1 s).1.Value = a.Value ++ [d, d] := by
  obtain ⟨d, hp, _⟩ := (Set_ok_iff lib a s).mp h
  have hall : ∀ b : MountOpt,
      MountOpt.Set lib b s = ({ values := b.values ++ [d] }, none) := by
    intro b
    unfold MountOpt.Set
    rw [hp]
  refine ⟨d, hall, ?_, ?_, ?_⟩
  · rw [hall a]; rfl
  · rw [hall]
  · rw [hall (MountOpt.Set lib a s).1, hall a]
    simp [MountOpt.Value]

/-- C3 at the input `type=bind,source=/a,target=/b` on an accumulator with one entry. -/
theorem C3_set_appends_same_descriptor_witness :
    (MountOpt.Set (goLib noRAM) ⟨[Mount.zero]⟩ "type=bind,source=/a,target=/b").2 = none ∧
    ∃ d, (∀ b : MountOpt, MountOpt.Set (goLib noRAM) b "type=bind,source=/a,target=/b"
        = ({ values := b.values ++ [d] }, none)) ∧
      (MountOpt.Set (goLib noRAM) ⟨[Mount.zero]⟩ "type=bind,source=/a,target=/b").1.Value
        = (MountOpt.mk [Mount.zero]).Value ++ [d] ∧
      (MountOpt.Set (goLib noRAM)
        (MountOpt.Set (goLib noRAM) ⟨[Mount.zero]⟩ "type=bind,source=/a,target=/b").1
        "type=bind,source=/a,target=/b").2 = none ∧
      (MountOpt.Set (goLib noRAM)
        (MountOpt.Set (goLib noRAM) ⟨[Mount.zero]⟩ "type=bind,source=/a,target=/b").1
        "type=bind,source=/a,target=/b").1.Value = (MountOpt.mk [Mount.zero]).Value ++ [d, d] :=
  ⟨by decide, C3_set_appends_same_descriptor (goLib noRAM) ⟨[Mount.zero]⟩
    "type=bind,source=/a,target=/b" (by decide)⟩

/-! ## Splitting a field -/

/-- When `cut` finds no separator, the text holds none. -/
theorem strings.cut_eq_none {sep : Char} {s : List Char} :
    strings.cut sep s = none ↔ sep ∉ s := by
  induction s with
  | nil => simp [strings.cut]
  | cons c cs ih =>
    unfold strings.cut
    by_cases hc : c = sep
    · simp [hc]
    · cases hcut : strings.cut sep cs with
      | none =>
        have := ih.mp hcut
        simp [hc, this, Ne.symm hc]
      | some p =>
        have hne : ¬ strings.cut sep cs = none := by simp [hcut]
        have hmem : sep ∈ cs := by
          by_contra hn
          exact hne (ih.mpr hn)
        simp [hc, hmem]

/-- When `cut` finds the separator, the text is the part before it, the
separator and the part after it, and the part before holds no separator. -/
theorem strings.cut_eq_some {sep : Char} {s a b : List Char}
    (h : strings.cut sep s = some (a, b)) : s = a ++ sep :: b ∧ sep ∉ a := by
  induction s generalizing a with
  | nil => simp [strings.cut] at h
  | cons c cs ih =>
    unfold strings.cut at h
    by_cases hc : c = sep
    · simp [hc] at h
      obtain ⟨ha, hb⟩ := h
      subst ha hb hc
      simp
    · simp only [hc, if_false] at h
      cases hcut : strings.cut sep cs with
      | none => simp [hcut] at h
      | some p =>
        obtain ⟨a1, b1⟩ := p
        simp [hcut] at h
        obtain ⟨ha, hb⟩ := h
        subst ha hb
        obtain ⟨hs, hn⟩ := ih hcut
        refine ⟨by simp [hs], ?_⟩
        simp [hn, Ne.symm hc]

/-- The two shapes of `strings.SplitN(field, "=", 2)`: the field itself when it
holds no `=`, else the text before the first `=` and the text after it. -/
theorem strings.SplitN_two (s : String) :
    (strings.SplitN s '=' 2 = [s] ∧ '=' ∉ s.data) ∨
      ∃ k v : String, strings.SplitN s '=' 2 = [k, v] ∧ s = k ++ "=" ++ v ∧ '=' ∉ k.data := by
  unfold strings.SplitN
  cases hcut : strings.cut '=' s.data with
  | none =>
    left
    exact ⟨by simp [strings.splitN, hcut], strings.cut_eq_none.mp hcut⟩
  | some p =>
    obtain ⟨a, b⟩ := p
    right
    obtain ⟨hs, hn⟩ := strings.cut_eq_some hcut
    refine ⟨String.mk a, String.mk b, by simp [strings.splitN, hcut], ?_, hn⟩
    apply String.ext
    simp [hs]

/-! ## The loop body, case by case -/

/-- The loop body on a field with no `=`: only the flag keys are accepted. -/
theorem setField_bare (lib : Lib) (mount : Mount) (field : String)
    (hs : strings.SplitN field '=' 2 = [field]) :
    MountOpt.setField lib mount field =
      if lib.ToLower field = "readonly" ∨ lib.ToLower field = "ro" then
        .ok { mount with ReadOnly := true }
      else if lib.ToLower field = "volume-nocopy" then
        .ok { mount with
          VolumeOptions := some { (MountOpt.volumeOptions mount).1 with NoCopy := true } }
      else .error ("invalid field '" ++ field ++ "' must be a key=value pair") := by
  unfold MountOpt.setField
  rw [hs]
  simp

/-- The loop body on a field `k=v`: the `switch` on the lower-cased key decides. -/
theorem setField_pair (lib : Lib) (mount : Mount) (field k v : String)
    (hs : strings.SplitN field '=' 2 = [k, v]) :
    MountOpt.setField lib mount field = MountOpt.setValue lib mount field (lib.ToLower k) v := by
  unfold MountOpt.setField
  rw [hs]
  simp

/-- The `switch` of `Set`, one case per disjunct, in the order of the source. -/
theorem setValue_cases (lib : Lib) (mount : Mount) (field key value : String) :
    (key = "type" ∧ MountOpt.setValue lib mount field key value
        = .ok { mount with Type_ := lib.ToLower value }) ∨
    ((key = "source" ∨ key = "src") ∧ MountOpt.setValue lib mount field key value
        = .ok { mount with Source := value }) ∨
    (isTargetKey key ∧ MountOpt.setValue lib mount field key value
        = .ok { mount with Target := value }) ∨
    ((key = "readonly" ∨ key = "ro") ∧ MountOpt.setValue lib mount field key value
        = match strconv.ParseBool value with
          | none => .error ("invalid value for " ++ key ++ ": " ++ value)
          | some b => .ok { mount with ReadOnly := b }) ∨
    (key = "max-bandwidth" ∧ MountOpt.setValue lib mount field key value
        = match lib.RAMInBytes value with
          | none => .error ("invalid value for " ++ key ++ ": " ++ value)
          | some bandwidth => .ok { mount with MaxBandwidth := uint64 bandwidth }) ∨
    (key = "max-iops" ∧ MountOpt.setValue lib mount field key value
        = match strconv.Atoi value with
          | none => .error ("invalid value for " ++ key ++ ": " ++ value)
          | some maxiops => .ok { mount with MaxIOps := uint64 maxiops }) ∨
    (key = "bind-propagation" ∧ MountOpt.setValue lib mount field key value
        = .ok { mount with BindOptions := some { Propagation := lib.ToLower value } }) ∨
    (key = "volume-nocopy" ∧ MountOpt.setValue lib mount field key value
        = match strconv.ParseBool value with
          | none => .error ("invalid value for populate: " ++ value)
          | some b => .ok { mount with
              VolumeOptions := some { (MountOpt.volumeOptions mount).1 with NoCopy := b } }) ∨
    (key = "volume-label" ∧ MountOpt.setValue lib mount field key value
        = .ok { mount with
            VolumeOptions := some { (MountOpt.volumeOptions mount).1 with
              Labels := MountOpt.setValueOnMap (MountOpt.volumeOptions mount).1.Labels value } }) ∨
    (key = "volume-driver" ∧ MountOpt.setValue lib mount field key value
        = .ok { mount with
            VolumeOptions := some { (MountOpt.volumeOptions mount).1 with
              DriverConfig := some { (MountOpt.volumeOptions mount).2 with Name := value } } }) ∨
    (key = "volume-opt" ∧ MountOpt.setValue lib mount field key value
        = .ok { mount with
            VolumeOptions := some { (MountOpt.volumeOptions mount).1 with
              DriverConfig := some { (MountOpt.volumeOptions mount).2 with
                Options := some (MountOpt.setValueOnMap
                  (match (MountOpt.volumeOptions mount).2.Options with
                    | none => []
                    | some o => o) value) } } }) ∨
    (¬ isRecognizedKey key ∧ MountOpt.setValue lib mount field key value
        = .error ("unexpected key '" ++ key ++ "' in '" ++ field ++ "'")) := by
  by_cases h1 : key = "type"
  · exact Or.inl ⟨h1, by unfold MountOpt.setValue; rw [if_pos h1]⟩
  refine Or.inr ?_
  by_cases h2 : key = "source" ∨ key = "src"
  · exact Or.inl ⟨h2, by unfold MountOpt.setValue; rw [if_neg h1, if_pos h2]⟩
  refine Or.inr ?_
  by_cases h3 : key = "target" ∨ key = "dst" ∨ key = "destination"
  · exact Or.inl ⟨h3, by unfold MountOpt.setValue; rw [if_neg h1, if_neg h2, if_pos h3]⟩
  refine Or.inr ?_
  by_cases h4 : key = "readonly" ∨ key = "ro"
  · exact Or.inl ⟨h4, by
      unfold MountOpt.setValue; rw [if_neg h1, if_neg h2, if_neg h3, if_pos h4]⟩
  refine Or.inr ?_
  by_cases h5 : key = "max-bandwidth"
  · exact Or.inl ⟨h5, by
      unfold MountOpt.setValue; rw [if_neg h1, if_neg h2, if_neg h3, if_neg h4, if_pos h5]⟩
  refine Or.inr ?_
  by_cases h6 : key = "max-iops"
  · exact Or.inl ⟨h6, by
      unfold MountOpt.setValue
      rw [if_neg h1, if_neg h2, if_neg h3, if_neg h4, if_neg h5, if_pos h6]⟩
  refine Or.inr ?_
  by_cases h7 : key = "bind-propagation"
  · exact Or.inl ⟨h7, by
      unfold MountOpt.setValue
      rw [if_neg h1, if_neg h2, if_neg h3, if_neg h4, if_neg h5, if_neg h6, if_pos h7]⟩
  refine Or.inr ?_
  by_cases h8 : key = "volume-nocopy"
  · exact Or.inl ⟨h8, by
      unfold MountOpt.setValue
      rw [if_neg h1, if_neg h2, if_neg h3, if_neg h4, if_neg h5, if_neg h6, if_neg h7,
        if_pos h8]⟩
  refine Or.inr ?_
  by_cases h9 : key = "volume-label"
  · exact Or.inl ⟨h9, by
      unfold MountOpt.setValue
      rw [if_neg h1, if_neg h2, if_neg h3, if_neg h4, if_neg h5, if_neg h6, if_neg h7,
        if_neg h8, if_pos h9]⟩
  refine Or.inr ?_
  by_cases h10 : key = "volume-driver"
  · exact Or.inl ⟨h10, by
      unfold MountOpt.setValue
      rw [if_neg h1, if_neg h2, if_neg h3, if_neg h4, if_neg h5, if_neg h6, if_neg h7,
        if_neg h8, if_neg h9, if_pos h10]⟩
  refine Or.inr ?_
  by_cases h11 : key = "volume-opt"
  · refine Or.inl ⟨h11, ?_⟩
    unfold MountOpt.setValue
    rw [if_neg h1, if_neg h2, if_neg h3, if_neg h4, if_neg h5, if_neg h6, if_neg h7,
      if_neg h8, if_neg h9, if_neg h10, if_pos h11]
  refine Or.inr ⟨?_, ?_⟩
  · unfold isRecognizedKey isVolumeKey isTargetKey
    tauto
  · unfold MountOpt.setValue
    rw [if_neg h1, if_neg h2, if_neg h3, if_neg h4, if_neg h5, if_neg h6, if_neg h7,
      if_neg h8, if_neg h9, if_neg h10, if_neg h11]

/-- The effect of a field `key=value` that is processed without error on the
kind, the target and the presence of the two option structures. -/
theorem setValue_ok_effect {lib : Lib} {mount d : Mount} {field key value : String}
    (h : MountOpt.setValue lib mount field key value = .ok d) :
    d.Type_ = (if key = "type" then lib.ToLower value else mount.Type_) ∧
      d.Target = (if isTargetKey key then value else mount.Target) ∧
      (d.VolumeOptions ≠ none ↔ mount.VolumeOptions ≠ none ∨ isVolumeKey key) ∧
      (d.BindOptions ≠ none ↔ mount.BindOptions ≠ none ∨ key = "bind-propagation") := by
  unfold isTargetKey isVolumeKey
  rcases setValue_cases lib mount field key value with
    ⟨hk, hr⟩ | ⟨hk, hr⟩ | ⟨hk, hr⟩ | ⟨hk, hr⟩ | ⟨hk, hr⟩ | ⟨hk, hr⟩ | ⟨hk, hr⟩ | ⟨hk, hr⟩ |
    ⟨hk, hr⟩ | ⟨hk, hr⟩ | ⟨hk, hr⟩ | ⟨hk, hr⟩ <;> rw [hr] at h
  · cases h; subst hk; simp
  · cases h; rcases hk with hk | hk <;> subst hk <;> simp
  · cases h; rcases hk with hk | hk | hk <;> subst hk <;> simp
  · cases hb : strconv.ParseBool value <;> rw [hb] at h <;> cases h
    rcases hk with hk | hk <;> subst hk <;> simp
  · cases hb : lib.RAMInBytes value <;> rw [hb] at h <;> cases h
    subst hk; simp
  · cases hb : strconv.Atoi value <;> rw [hb] at h <;> cases h
    subst hk; simp
  · cases h; subst hk; simp
  · cases hb : strconv.ParseBool value <;> rw [hb] at h <;> cases h
    subst hk; simp
  · cases h; subst hk; simp
  · cases h; subst hk; simp
  · cases h; subst hk; simp
  · cases h

/-- The effect of one field that is processed without error on the kind, the
target and the presence of the two option structures. -/
theorem setField_ok_effect {lib : Lib} {mount d : Mount} {field : String}
    (h : MountOpt.setField lib mount field = .ok d) :
    d.Type_ = (if fieldKey lib field = "type" then lib.ToLower ((fieldValue field).getD "")
        else mount.Type_) ∧
      d.Target = (if isTargetKey (fieldKey lib field) then (fieldValue field).getD ""
        else mount.Target) ∧
      (d.VolumeOptions ≠ none ↔ mount.VolumeOptions ≠ none ∨ isVolumeKey (fieldKey lib field)) ∧
      (d.BindOptions ≠ none ↔
        mount.BindOptions ≠ none ∨ fieldKey lib field = "bind-propagation") := by
  rcases strings.SplitN_two field with ⟨hs, _⟩ | ⟨k, v, hs, _, _⟩
  · have hkey : fieldKey lib field = lib.ToLower field := by simp [fieldKey, hs]
    rw [setField_bare lib mount field hs] at h
    rw [hkey]
    unfold isTargetKey isVolumeKey
    by_cases h1 : lib.ToLower field = "readonly" ∨ lib.ToLower field = "ro"
    · rw [if_pos h1] at h
      cases h
      rcases h1 with h1 | h1 <;> rw [h1] <;> simp
    · rw [if_neg h1] at h
      by_cases h2 : lib.ToLower field = "volume-nocopy"
      · rw [if_pos h2] at h
        cases h
        rw [h2]
        simp
      · rw [if_neg h2] at h
        cases h
  · have hkey : fieldKey lib field = lib.ToLower k := by simp [fieldKey, hs]
    have hval : (fieldValue field).getD "" = v := by simp [fieldValue, hs]
    rw [setField_pair lib mount field k v hs] at h
    rw [hkey, hval]
    exact setValue_ok_effect h

/-! ## The loop over the fields -/

/-- The loop over a list of fields followed by one more field. -/
theorem setFields_cons_ok {lib : Lib} {mount d : Mount} {f : String}
    {rest : List String} (h : MountOpt.setFields lib mount (f :: rest) = .ok d) :
    ∃ mount1, MountOpt.setField lib mount f = .ok mount1 ∧
      MountOpt.setFields lib mount1 rest = .ok d := by
  unfold MountOpt.setFields at h
  cases hf : MountOpt.setField lib mount f with
  | error e => rw [hf] at h; cases h
  | ok mount1 => rw [hf] at h; exact ⟨mount1, rfl, h⟩

/-- After the loop has processed every field without error, the kind is the one
of the last `type` field, the target the one of the last target field, and
each option structure is present when it was before or a field of its keys
appeared. -/
theorem setFields_ok_effect {lib : Lib} {fields : List String} :
    ∀ {mount d : Mount}, MountOpt.setFields lib mount fields = .ok d →
      d.Type_ = kindAfter lib mount.Type_ fields ∧
      d.Target = targetAfter lib mount.Target fields ∧
      (d.VolumeOptions ≠ none ↔ mount.VolumeOptions ≠ none ∨ hasVolumeField lib fields) ∧
      (d.BindOptions ≠ none ↔ mount.BindOptions ≠ none ∨ hasBindField lib fields) := by
  induction fields with
  | nil =>
    intro mount d h
    unfold MountOpt.setFields at h
    cases h
    simp [kindAfter, targetAfter, hasVolumeField, hasBindField]
  | cons f rest ih =>
    intro mount d h
    obtain ⟨mount1, hf, hrest⟩ := setFields_cons_ok h
    obtain ⟨hk, ht, hv, hb⟩ := setField_ok_effect hf
    obtain ⟨ihk, iht, ihv, ihb⟩ := ih hrest
    refine ⟨?_, ?_, ?_, ?_⟩
    · rw [ihk, hk]
      simp only [kindAfter]
      split_ifs <;> rfl
    · rw [iht, ht]
      simp only [targetAfter]
      split_ifs <;> rfl
    · have hmem : hasVolumeField lib (f :: rest) ↔
          isVolumeKey (fieldKey lib f) ∨ hasVolumeField lib rest := by
        simp only [hasVolumeField, List.mem_cons, exists_eq_or_imp]
      exact ihv.trans ((or_congr_left hv).trans ((or_assoc).trans (or_congr_right hmem.symm)))
    · have hmem : hasBindField lib (f :: rest) ↔
          fieldKey lib f = "bind-propagation" ∨ hasBindField lib rest := by
        simp only [hasBindField, List.mem_cons, exists_eq_or_imp]
      exact ihb.trans ((or_congr_left hb).trans ((or_assoc).trans (or_congr_right hmem.symm)))

/-- After the fields of a record are processed without error, the mount holds the
final kind and the final target of the record, and each option structure is
present exactly when a field of its keys appeared. -/
theorem setFields_initial_effect {lib : Lib} {fields : List String} {d : Mount}
    (h : MountOpt.setFields lib { Mount.zero with Type_ := TypeVolume } fields = .ok d) :
    d.Type_ = finalKind lib fields ∧ d.Target = finalTarget lib fields ∧
      (d.VolumeOptions ≠ none ↔ hasVolumeField lib fields) ∧
      (d.BindOptions ≠ none ↔ hasBindField lib fields) := by
  obtain ⟨hk, ht, hv, hb⟩ := setFields_ok_effect h
  refine ⟨hk, ht, ?_, ?_⟩
  · rw [hv]; simp [Mount.zero]
  · rw [hb]; simp [Mount.zero]

/-- Outcome of `parse` once the record is read and its fields are processed:
the result of the final checks. -/
theorem parse_eq_validate {lib : Lib} {value : String} {fields : List String}
    {mount : Mount} (hcsv : lib.csvRead value = .ok fields)
    (hfields : MountOpt.setFields lib { Mount.zero with Type_ := TypeVolume } fields
      = .ok mount) :
    MountOpt.parse lib value = MountOpt.validate mount := by
  unfold MountOpt.parse
  rw [hcsv]
  simp only
  rw [hfields]

/-- The error of `Set` is the error of `parse`. -/
theorem Set_snd (lib : Lib) (m : MountOpt) (value : String) :
    (MountOpt.Set lib m value).2 =
      match MountOpt.parse lib value with
      | .error e => some e
      | .ok _ => none := by
  unfold MountOpt.Set
  cases MountOpt.parse lib value <;> rfl

/-- The final checks on a mount with a kind and a target: the two conflict checks decide. -/
theorem validate_of_nonempty {mount : Mount} (hk : mount.Type_ ≠ "")
    (ht : mount.Target ≠ "") :
    MountOpt.validate mount =
      if mount.Type_ = "bind" ∧ mount.VolumeOptions ≠ none then
        .error "cannot mix 'volume-*' options with mount type 'bind'"
      else if mount.Type_ = "volume" ∧ mount.BindOptions ≠ none then
        .error "cannot mix 'bind-*' options with mount type 'volume'"
      else .ok mount := by
  unfold MountOpt.validate
  rw [if_neg hk, if_neg ht]
  rfl

/-! ## C4 to C6: the two option structures and the kind -/

/-- C4 (as stated) fails: on `type=tmpfs,target=/b,volume-nocopy,bind-propagation=shared`
`Set` succeeds and the appended descriptor has both `VolumeOptions` and
`BindOptions` populated. -/
theorem C4_counterexample_both_populated :
    MountOpt.Set (goLib noRAM) ⟨[]⟩ "type=tmpfs,target=/b,volume-nocopy,bind-propagation=shared"
      = (⟨[{ Type_ := "tmpfs", Source := "", Target := "/b", ReadOnly := false,
             BindOptions := some { Propagation := "shared" },
             VolumeOptions := some
               { NoCopy := true, Labels := [], DriverConfig := some { Name := "", Options := none } },
             MaxBandwidth := 0, MaxIOps := 0 }]⟩, none) := by
  decide

/-- C4 (amended): when `Set` succeeds, the appended descriptor has no
`VolumeOptions` if its kind is `bind` and no `BindOptions` if its kind is
`volume`; so for these two kinds it never has both populated. -/
theorem C4_exclusive_for_bind_and_volume (lib : Lib) (m : MountOpt) (value : String)
    (h : (MountOpt.Set lib m value).2 = none) :
    ∃ d, (MountOpt.Set lib m value).1.Value = m.Value ++ [d] ∧
      (d.Type_ = "bind" → d.VolumeOptions = none) ∧
      (d.Type_ = "volume" → d.BindOptions = none) ∧
      (d.Type_ = "bind" ∨ d.Type_ = "volume" →
        ¬ (d.VolumeOptions ≠ none ∧ d.BindOptions ≠ none)) := by
  obtain ⟨d, hp, hs⟩ := (Set_ok_iff lib m value).mp h
  obtain ⟨hb, hv⟩ := validate_ok_exclusive (parse_ok_validate hp)
  refine ⟨d, by rw [hs]; rfl, hb, hv, ?_⟩
  rintro (hk | hk) ⟨hvo, hbo⟩
  · exact hvo (hb hk)
  · exact hbo (hv hk)

/-- C4 (amended) at the input `type=bind,target=/b,bind-propagation=shared`. -/
theorem C4_exclusive_for_bind_and_volume_witness :
    (MountOpt.Set (goLib noRAM) ⟨[]⟩ "type=bind,target=/b,bind-propagation=shared").2 = none ∧
    ∃ d, (MountOpt.Set (goLib noRAM) ⟨[]⟩ "type=bind,target=/b,bind-propagation=shared").1.Value
        = (MountOpt.mk []).Value ++ [d] ∧
      (d.Type_ = "bind" → d.VolumeOptions = none) ∧
      (d.Type_ = "volume" → d.BindOptions = none) ∧
      (d.Type_ = "bind" ∨ d.Type_ = "volume" →
        ¬ (d.VolumeOptions ≠ none ∧ d.BindOptions ≠ none)) :=
  ⟨by decide, C4_exclusive_for_bind_and_volume (goLib noRAM) ⟨[]⟩
    "type=bind,target=/b,bind-propagation=shared" (by decide)⟩

/-- C5: when the fields of the record are all processed without error and the
final kind and the final target are non-empty, the kind the checks use is the
final kind, `Set` fails with the `volume-*` conflict error exactly when the
final kind is `bind` and a volume-nocopy, volume-label, volume-driver or
volume-opt field appeared, with the `bind-*` conflict error exactly when the
final kind is `volume` and a bind-propagation field appeared, and so with a
conflict error exactly when one of the two holds. -/
theorem C5_conflict_iff (lib : Lib) (m : MountOpt) (value : String) (fields : List String)
    (mount : Mount) (hcsv : lib.csvRead value = .ok fields)
    (hfields : MountOpt.setFields lib { Mount.zero with Type_ := TypeVolume } fields
      = .ok mount)
    (hkind : finalKind lib fields ≠ "") (htarget : finalTarget lib fields ≠ "") :
    mount.Type_ = finalKind lib fields ∧
    ((MountOpt.Set lib m value).2 = some "cannot mix 'volume-*' options with mount type 'bind'"
      ↔ finalKind lib fields = "bind" ∧ hasVolumeField lib fields) ∧
    ((MountOpt.Set lib m value).2 = some "cannot mix 'bind-*' options with mount type 'volume'"
      ↔ finalKind lib fields = "volume" ∧ hasBindField lib fields) ∧
    (((MountOpt.Set lib m value).2 = some "cannot mix 'volume-*' options with mount type 'bind'"
        ∨ (MountOpt.Set lib m value).2
          = some "cannot mix 'bind-*' options with mount type 'volume'")
      ↔ (finalKind lib fields = "bind" ∧ hasVolumeField lib fields)
        ∨ (finalKind lib fields = "volume" ∧ hasBindField lib fields)) := by
  obtain ⟨hk, ht, hv, hb⟩ := setFields_initial_effect hfields
  have hset : (MountOpt.Set lib m value).2 =
      match MountOpt.validate mount with
      | .error e => some e
      | .ok _ => none := by
    rw [Set_snd, parse_eq_validate hcsv hfields]
  rw [validate_of_nonempty (hk ▸ hkind) (ht ▸ htarget), hk] at hset
  have h1 : (MountOpt.Set lib m value).2
        = some "cannot mix 'volume-*' options with mount type 'bind'"
      ↔ finalKind lib fields = "bind" ∧ mount.VolumeOptions ≠ none := by
    rw [hset]
    by_cases c1 : finalKind lib fields = "bind" ∧ mount.VolumeOptions ≠ none
    · rw [if_pos c1]
      simp only [c1, iff_true, and_self, not_false_eq_true, ne_eq]
    · rw [if_neg c1]
      by_cases c2 : finalKind lib fields = "volume" ∧ mount.BindOptions ≠ none
      · rw [if_pos c2]
        simp only [c1, iff_false]
        decide
      · rw [if_neg c2]
        simp only [c1, iff_false]
        exact fun h => Option.noConfusion h
  have h2 : (MountOpt.Set lib m value).2
        = some "cannot mix 'bind-*' options with mount type 'volume'"
      ↔ finalKind lib fields = "volume" ∧ mount.BindOptions ≠ none := by
    rw [hset]
    by_cases c1 : finalKind lib fields = "bind" ∧ mount.VolumeOptions ≠ none
    · rw [if_pos c1]
      have hne : ¬ (finalKind lib fields = "volume" ∧ mount.BindOptions ≠ none) := by
        rintro ⟨hvol, _⟩
        rw [c1.1] at hvol
        exact absurd hvol (by decide)
      simp only [hne, iff_false]
      decide
    · rw [if_neg c1]
      by_cases c2 : finalKind lib fields = "volume" ∧ mount.BindOptions ≠ none
      · rw [if_pos c2]
        simp only [c2, iff_true, and_self, not_false_eq_true, ne_eq]
      · rw [if_neg c2]
        simp only [c2, iff_false]
        exact fun h => Option.noConfusion h
  have h1f := h1.trans (and_congr_right' hv)
  have h2f := h2.trans (and_congr_right' hb)
  exact ⟨hk, h1f, h2f, or_congr h1f h2f⟩

/-- C5 at the record `volume-label=a,type=bind,target=/b`, where the `type` field
follows the option field. -/
theorem C5_conflict_iff_witness :
    (finalKind (goLib noRAM) ["volume-label=a", "type=bind", "target=/b"] = "bind" ∧
      hasVolumeField (goLib noRAM) ["volume-label=a", "type=bind", "target=/b"]) ∧
    (MountOpt.Set (goLib noRAM) ⟨[]⟩ "volume-label=a,type=bind,target=/b").2
      = some "cannot mix 'volume-*' options with mount type 'bind'" := by
  have h := C5_conflict_iff (goLib noRAM) ⟨[]⟩ "volume-label=a,type=bind,target=/b"
    ["volume-label=a", "type=bind", "target=/b"]
    { Type_ := "bind", Source := "", Target := "/b", ReadOnly := false, BindOptions := none,
      VolumeOptions := some
        { NoCopy := false, Labels := [("a", "")],
          DriverConfig := some { Name := "", Options := none } },
      MaxBandwidth := 0, MaxIOps := 0 }
    (by decide) (by decide) (by decide) (by decide)
  exact ⟨by decide, h.2.1.mpr (by decide)⟩

/-- C6 (as stated) fails: `type=bind,volume-label=x` has kind `bind` and a
`volume-*` field, and `Set` fails with the missing-target error, not with the
conflict error. -/
theorem C6_counterexample_no_target :
    (finalKind (goLib noRAM) ["type=bind", "volume-label=x"] = "bind" ∧
      hasVolumeField (goLib noRAM) ["type=bind", "volume-label=x"]) ∧
    MountOpt.Set (goLib noRAM) ⟨[]⟩ "type=bind,volume-label=x"
      = (⟨[]⟩, some "target is required") := by
  decide

/-- C6 (amended): when the fields of the record are all processed without error,
the final kind is `bind` and a `volume-*` field appeared, `Set` fails with the
`volume-*` conflict error if the final target is non-empty, and with the
missing-target error if it is empty; the accumulator is unchanged. -/
theorem C6_bind_with_volume_field (lib : Lib) (m : MountOpt) (value : String)
    (fields : List String) (mount : Mount) (hcsv : lib.csvRead value = .ok fields)
    (hfields : MountOpt.setFields lib { Mount.zero with Type_ := TypeVolume } fields
      = .ok mount)
    (hkind : finalKind lib fields = "bind") (hvol : hasVolumeField lib fields) :
    (finalTarget lib fields ≠ "" → MountOpt.Set lib m value
      = (m, some "cannot mix 'volume-*' options with mount type 'bind'")) ∧
    (finalTarget lib fields = "" → MountOpt.Set lib m value
      = (m, some "target is required")) := by
  obtain ⟨hk, ht, hv, _⟩ := setFields_initial_effect hfields
  have hparse := parse_eq_validate hcsv hfields
  have hkne : mount.Type_ ≠ "" := by
    rw [hk, hkind]
    decide
  constructor
  · intro htarget
    have hval : MountOpt.validate mount
        = .error "cannot mix 'volume-*' options with mount type 'bind'" := by
      rw [validate_of_nonempty hkne (ht ▸ htarget),
        if_pos ⟨hk.trans hkind, hv.mpr hvol⟩]
    unfold MountOpt.Set
    rw [hparse, hval]
  · intro htarget
    have hval : MountOpt.validate mount = .error "target is required" := by
      unfold MountOpt.validate
      rw [if_neg hkne, if_pos (ht.trans htarget)]
    unfold MountOpt.Set
    rw [hparse, hval]

/-- C6 (amended) at the record `type=bind,target=/b,volume-label=x`. -/
theorem C6_bind_with_volume_field_witness :
    MountOpt.Set (goLib noRAM) ⟨[]⟩ "type=bind,target=/b,volume-label=x"
      = (⟨[]⟩, some "cannot mix 'volume-*' options with mount type 'bind'") :=
  (C6_bind_with_volume_field (goLib noRAM) ⟨[]⟩ "type=bind,target=/b,volume-label=x"
    ["type=bind", "target=/b", "volume-label=x"]
    { Type_ := "bind", Source := "", Target := "/b", ReadOnly := false, BindOptions := none,
      VolumeOptions := some
        { NoCopy := false, Labels := [("x", "")],
          DriverConfig := some { Name := "", Options := none } },
      MaxBandwidth := 0, MaxIOps := 0 }
    (by decide) (by decide) (by decide) (by decide)).1 (by decide)

/-! ## C7: the value of `max-iops` -/

/-- An integer that `Atoi` returns lies in the range of a signed 64-bit integer. -/
theorem strconv.Atoi_range {s : String} {n : Int} (h : strconv.Atoi s = some n) :
    -(2 ^ 63) ≤ n ∧ n < 2 ^ 63 := by
  unfold strconv.Atoi at h
  simp only at h
  split_ifs at h with h1 h2 h3 h4
  · cases h
    have : ¬ (strconv.digitsValue _ > 2 ^ 63) := fun hgt => h3 ⟨h4, hgt⟩
    omega
  · cases h
    have hneg : _ = false := Bool.eq_false_iff.mpr h4
    have : ¬ (strconv.digitsValue _ ≥ 2 ^ 63) := fun hge => h2 ⟨hneg, hge⟩
    omega

/-- A non-empty string of decimal digits whose value is below `2^63` is read by
`Atoi` as that value. -/
theorem strconv.Atoi_digits (ds : List Char) (hne : ds ≠ [])
    (hd : ds.all Char.isDigit = true) (hr : strconv.digitsValue ds < 2 ^ 63) :
    strconv.Atoi (String.mk ds) = some (strconv.digitsValue ds : Int) := by
  cases ds with
  | nil => exact absurd rfl hne
  | cons c cs =>
    have hc : c.isDigit = true := by
      simp only [List.all_cons, Bool.and_eq_true] at hd
      exact hd.1
    have hplus : c ≠ '+' := by
      intro h
      rw [h] at hc
      exact absurd hc (by decide)
    have hminus : c ≠ '-' := by
      intro h
      rw [h] at hc
      exact absurd hc (by decide)
    unfold strconv.Atoi
    have hm : (match (String.mk (c :: cs)).data with
        | '+' :: rest => (false, rest)
        | '-' :: rest => (true, rest)
        | rest => (false, rest)) = (false, c :: cs) := by
      split
      · rename_i heq
        simp only [List.cons.injEq] at heq
        exact absurd heq.1 hplus
      · rename_i heq
        simp only [List.cons.injEq] at heq
        exact absurd heq.1 hminus
      · rfl
    simp only [hm]
    rw [if_neg (by simp [hd]), if_neg (by omega), if_neg (by simp)]
    simp

/-- The conversion `uint64(n)` keeps a non-negative 64-bit integer. -/
theorem uint64_of_nonneg {n : Int} (h0 : 0 ≤ n) (h1 : n < 2 ^ 63) : uint64 n = n.toNat := by
  unfold uint64
  rw [Int.emod_eq_of_lt h0 (by omega)]

/-- The loop stops at the first field that fails: the fields before it are
processed, and its error is the error of the loop. -/
theorem setFields_append_error {lib : Lib} {pre post : List String} {field e : String} :
    ∀ {mount0 mount : Mount}, MountOpt.setFields lib mount0 pre = .ok mount →
      MountOpt.setField lib mount field = .error e →
      MountOpt.setFields lib mount0 (pre ++ field :: post) = .error e := by
  induction pre with
  | nil =>
    intro mount0 mount hpre hf
    unfold MountOpt.setFields at hpre
    cases hpre
    simp only [List.nil_append]
    unfold MountOpt.setFields
    rw [hf]
  | cons f rest ih =>
    intro mount0 mount hpre hf
    obtain ⟨mount1, h1, hrest⟩ := setFields_cons_ok hpre
    simp only [List.cons_append]
    unfold MountOpt.setFields
    rw [h1]
    exact ih hrest hf

/-- The outcome of `Set` when the record is read, the fields before `field` are
processed without error and `field` fails: the error of `field`, and the
accumulator unchanged. -/
theorem Set_field_error {lib : Lib} {m : MountOpt} {value field e : String}
    {pre post : List String} {mount : Mount}
    (hcsv : lib.csvRead value = .ok (pre ++ field :: post))
    (hpre : MountOpt.setFields lib { Mount.zero with Type_ := TypeVolume } pre = .ok mount)
    (hf : MountOpt.setField lib mount field = .error e) :
    MountOpt.Set lib m value = (m, some e) := by
  have hp : MountOpt.parse lib value = .error e := by
    unfold MountOpt.parse
    rw [hcsv]
    simp only
    rw [setFields_append_error hpre hf]
  unfold MountOpt.Set
  rw [hp]

/-- The `switch` of `Set` on the key `max-iops`. -/
theorem setValue_max_iops (lib : Lib) (mount : Mount) (field value : String) :
    MountOpt.setValue lib mount field "max-iops" value =
      match strconv.Atoi value with
      | none => .error ("invalid value for max-iops: " ++ value)
      | some maxiops => .ok { mount with MaxIOps := uint64 maxiops } := by
  rcases setValue_cases lib mount field "max-iops" value with
    ⟨hk, _⟩ | ⟨hk, _⟩ | ⟨hk, _⟩ | ⟨hk, _⟩ | ⟨hk, _⟩ | ⟨_, hr⟩ | ⟨hk, _⟩ | ⟨hk, _⟩ |
    ⟨hk, _⟩ | ⟨hk, _⟩ | ⟨hk, _⟩ | ⟨hk, _⟩
  all_goals first
    | exact hr
    | exact absurd hk (by decide)

/-- C7: the code at the failing input `target=/b,max-iops=-1`.  The value `-1` does
not denote a non-negative integer, and the claim requires the invalid-value
error for it; `Atoi` reads it as `-1`, the conversion to `uint64` gives
`2^64 - 1`, and `Set` returns no error and appends a descriptor whose
`MaxIOps` is `2^64 - 1`. -/
theorem C7_negative_max_iops_accepted :
    strconv.Atoi "-1" = some (-1) ∧ uint64 (-1) = 18446744073709551615 ∧
    MountOpt.Set (goLib noRAM) ⟨[]⟩ "target=/b,max-iops=-1"
      = (⟨[{ Type_ := "volume", Source := "", Target := "/b", ReadOnly := false,
             BindOptions := none, VolumeOptions := none, MaxBandwidth := 0,
             MaxIOps := 18446744073709551615 }]⟩, none) := by
  decide

/-- Where the code meets the requirement on `max-iops`: for a field `k=v` whose
key lower-cases to `max-iops`, reached after the fields before it were
processed without error: when `Atoi` reads `v` as a non-negative integer `n`,
the field is accepted and sets `MaxIOps` to `n` and nothing else, which is the
case when `v` is a non-empty string of decimal digits with value below `2^63`;
when `Atoi` rejects `v`, `Set` fails with the invalid-value error that names
the key `max-iops` and the value `v`, and the accumulator is unchanged. -/
theorem max_iops_nonneg_or_rejected (lib : Lib) (m : MountOpt) (value field k v : String)
    (pre post : List String) (mount : Mount)
    (hcsv : lib.csvRead value = .ok (pre ++ field :: post))
    (hpre : MountOpt.setFields lib { Mount.zero with Type_ := TypeVolume } pre = .ok mount)
    (hs : strings.SplitN field '=' 2 = [k, v]) (hkey : lib.ToLower k = "max-iops") :
    (∀ n : Int, strconv.Atoi v = some n → 0 ≤ n →
      MountOpt.setField lib mount field = .ok { mount with MaxIOps := n.toNat }) ∧
    (∀ ds : List Char, v = String.mk ds → ds ≠ [] → ds.all Char.isDigit = true →
      strconv.digitsValue ds < 2 ^ 63 →
      MountOpt.setField lib mount field
        = .ok { mount with MaxIOps := strconv.digitsValue ds }) ∧
    (strconv.Atoi v = none →
      MountOpt.Set lib m value = (m, some ("invalid value for max-iops: " ++ v))) := by
  have hf := setField_pair lib mount field k v hs
  rw [hkey, setValue_max_iops] at hf
  have hacc : ∀ n : Int, strconv.Atoi v = some n → 0 ≤ n →
      MountOpt.setField lib mount field = .ok { mount with MaxIOps := n.toNat } := by
    intro n hn h0
    rw [hf, hn]
    simp only
    rw [uint64_of_nonneg h0 (strconv.Atoi_range hn).2]
  refine ⟨hacc, ?_, ?_⟩
  · intro ds hv hne hd hr
    have h := hacc (strconv.digitsValue ds) (hv ▸ strconv.Atoi_digits ds hne hd hr)
      (Int.ofNat_nonneg _)
    rw [h, Int.toNat_ofNat]
  · intro hn
    rw [hn] at hf
    exact Set_field_error hcsv hpre hf

/-- The requirement on `max-iops` at the records `target=/b,max-iops=abc`, which
fails, and `target=/b,MAX-IOPS=+42`, whose last field sets `MaxIOps` to 42. -/
theorem max_iops_nonneg_or_rejected_at_records :
    MountOpt.Set (goLib noRAM) ⟨[]⟩ "target=/b,max-iops=abc"
      = (⟨[]⟩, some "invalid value for max-iops: abc") ∧
    MountOpt.setField (goLib noRAM)
        { Mount.zero with Type_ := "volume", Target := "/b" } "MAX-IOPS=+42"
      = .ok { Mount.zero with Type_ := "volume", Target := "/b", MaxIOps := 42 } :=
  ⟨(max_iops_nonneg_or_rejected (goLib noRAM) ⟨[]⟩ "target=/b,max-iops=abc" "max-iops=abc" "max-iops"
      "abc" ["target=/b"] [] { Mount.zero with Type_ := "volume", Target := "/b" }
      (by decide) (by decide) (by decide) (by decide)).2.2 (by decide),
   (max_iops_nonneg_or_rejected (goLib noRAM) ⟨[]⟩ "target=/b,MAX-IOPS=+42" "MAX-IOPS=+42" "MAX-IOPS"
      "+42" ["target=/b"] [] { Mount.zero with Type_ := "volume", Target := "/b" }
      (by decide) (by decide) (by decide) (by decide)).1 42 (by decide) (by decide)⟩

/-! ## C8 to C10: errors caused by a field -/

/-- A field with no `=` is not split. -/
theorem strings.SplitN_two_of_not_mem {s : String} (h : '=' ∉ s.data) :
    strings.SplitN s '=' 2 = [s] := by
  rcases strings.SplitN_two s with ⟨hs, _⟩ | ⟨k, v, _, hkv, _⟩
  · exact hs
  · exfalso
    apply h
    rw [hkv]
    simp

/-- A text occurs in every message built around it. -/
theorem occursIn_append (a s b : String) : occursIn s (a ++ s ++ b) :=
  ⟨a.data, b.data, by simp⟩

/-- A text occurs in every message that ends with it. -/
theorem occursIn_append_left (a s : String) : occursIn s (a ++ s) :=
  ⟨a.data, [], by simp⟩

/-- C8 (as stated) fails: the bare field `bogus-key` has an unrecognized key, and
`Set` fails with the `must be a key=value pair` error, not with the
`unexpected key` error. -/
theorem C8_counterexample_bare_unknown_key :
    ¬ isRecognizedKey (fieldKey (goLib noRAM) "bogus-key") ∧
    MountOpt.Set (goLib noRAM) ⟨[]⟩ "target=/b,bogus-key"
      = (⟨[]⟩, some "invalid field 'bogus-key' must be a key=value pair") := by
  decide

/-- C8 (amended): for a field whose lower-cased key is not a recognized key,
reached after the fields before it were processed without error: when the
field has the form `k=v`, `Set` fails with the `unexpected key` error naming
the lower-cased key and the full field; when the field has no `=`, `Set` fails
with the `must be a key=value pair` error naming the full field.  The
accumulator is unchanged. -/
theorem C8_unknown_key (lib : Lib) (m : MountOpt) (value field : String)
    (pre post : List String) (mount : Mount)
    (hcsv : lib.csvRead value = .ok (pre ++ field :: post))
    (hpre : MountOpt.setFields lib { Mount.zero with Type_ := TypeVolume } pre = .ok mount)
    (hkey : ¬ isRecognizedKey (fieldKey lib field)) :
    (∀ k v : String, strings.SplitN field '=' 2 = [k, v] →
      MountOpt.Set lib m value
        = (m, some ("unexpected key '" ++ lib.ToLower k ++ "' in '" ++ field ++ "'"))) ∧
    ('=' ∉ field.data →
      MountOpt.Set lib m value
        = (m, some ("invalid field '" ++ field ++ "' must be a key=value pair"))) := by
  constructor
  · intro k v hs
    have hk : fieldKey lib field = lib.ToLower k := by simp [fieldKey, hs]
    rw [hk] at hkey
    have hf := setField_pair lib mount field k v hs
    rcases setValue_cases lib mount field (lib.ToLower k) v with
      ⟨c, _⟩ | ⟨c, _⟩ | ⟨c, _⟩ | ⟨c, _⟩ | ⟨c, _⟩ | ⟨c, _⟩ | ⟨c, _⟩ | ⟨c, _⟩ |
      ⟨c, _⟩ | ⟨c, _⟩ | ⟨c, _⟩ | ⟨_, hr⟩
    all_goals first
      | exact Set_field_error hcsv hpre (hf.trans hr)
      | exact absurd (by unfold isRecognizedKey isVolumeKey; tauto) hkey
  · intro hno
    have hs := strings.SplitN_two_of_not_mem hno
    have hk : fieldKey lib field = lib.ToLower field := by simp [fieldKey, hs]
    rw [hk] at hkey
    have hf := setField_bare lib mount field hs
    have h1 : ¬ (lib.ToLower field = "readonly" ∨ lib.ToLower field = "ro") := by
      intro c
      apply hkey
      unfold isRecognizedKey
      tauto
    have h2 : ¬ lib.ToLower field = "volume-nocopy" := by
      intro c
      apply hkey
      unfold isRecognizedKey isVolumeKey
      tauto
    rw [if_neg h1, if_neg h2] at hf
    exact Set_field_error hcsv hpre hf

/-- C8 (amended) at the record `target=/b,bogus-key=1`. -/
theorem C8_unknown_key_witness :
    MountOpt.Set (goLib noRAM) ⟨[]⟩ "target=/b,bogus-key=1"
      = (⟨[]⟩, some "unexpected key 'bogus-key' in 'bogus-key=1'") :=
  (C8_unknown_key (goLib noRAM) ⟨[]⟩ "target=/b,bogus-key=1" "bogus-key=1" ["target=/b"] []
    { Mount.zero with Type_ := "volume", Target := "/b" }
    (by decide) (by decide) (by decide)).1 "bogus-key" "1" (by decide)

/-- C9: a field with no `=` whose lower-cased key is one of the value-required
keys, reached after the fields before it were processed without error, makes
`Set` fail with the error `invalid field '<field>' must be a key=value pair`;
the message holds the field, which is the key as written, and the
accumulator is unchanged. -/
theorem C9_missing_value (lib : Lib) (m : MountOpt) (value field : String)
    (pre post : List String) (mount : Mount)
    (hcsv : lib.csvRead value = .ok (pre ++ field :: post))
    (hpre : MountOpt.setFields lib { Mount.zero with Type_ := TypeVolume } pre = .ok mount)
    (hno : '=' ∉ field.data)
    (hkey : lib.ToLower field ∈ ["type", "source", "src", "target", "dst", "destination",
      "max-bandwidth", "max-iops", "bind-propagation", "volume-label", "volume-driver",
      "volume-opt"]) :
    MountOpt.Set lib m value
        = (m, some ("invalid field '" ++ field ++ "' must be a key=value pair")) ∧
      occursIn field ("invalid field '" ++ field ++ "' must be a key=value pair") := by
  refine ⟨?_, occursIn_append _ _ _⟩
  have hs := strings.SplitN_two_of_not_mem hno
  have hf := setField_bare lib mount field hs
  have h1 : ¬ (lib.ToLower field = "readonly" ∨ lib.ToLower field = "ro") := by
    rintro (c | c) <;> rw [c] at hkey <;> exact absurd hkey (by decide)
  have h2 : ¬ lib.ToLower field = "volume-nocopy" := by
    intro c
    rw [c] at hkey
    exact absurd hkey (by decide)
  rw [if_neg h1, if_neg h2] at hf
  exact Set_field_error hcsv hpre hf

/-- C9 at the record `target=/b,Source`. -/
theorem C9_missing_value_witness :
    MountOpt.Set (goLib noRAM) ⟨[]⟩ "target=/b,Source"
        = (⟨[]⟩, some "invalid field 'Source' must be a key=value pair") ∧
      occursIn "Source" "invalid field 'Source' must be a key=value pair" :=
  C9_missing_value (goLib noRAM) ⟨[]⟩ "target=/b,Source" "Source" ["target=/b"] []
    { Mount.zero with Type_ := "volume", Target := "/b" }
    (by decide) (by decide) (by decide) (by decide)

/-- An error of the loop is the error of one of the fields. -/
theorem setFields_error_mem {lib : Lib} {fields : List String} {e : String} :
    ∀ {mount : Mount}, MountOpt.setFields lib mount fields = .error e →
      ∃ field ∈ fields, ∃ mount1, MountOpt.setField lib mount1 field = .error e := by
  induction fields with
  | nil =>
    intro mount h
    unfold MountOpt.setFields at h
    cases h
  | cons f rest ih =>
    intro mount h
    unfold MountOpt.setFields at h
    cases hf : MountOpt.setField lib mount f with
    | error e1 =>
      rw [hf] at h
      cases h
      exact ⟨f, List.mem_cons_self f rest, mount, hf⟩
    | ok mount1 =>
      rw [hf] at h
      obtain ⟨field, hmem, mount2, h2⟩ := ih h
      exact ⟨field, List.mem_cons_of_mem f hmem, mount2, h2⟩

/-- The errors of the final checks. -/
theorem validate_error {mount : Mount} {e : String}
    (h : MountOpt.validate mount = .error e) :
    e = "type is required" ∨ e = "target is required" ∨
      e = "cannot mix 'volume-*' options with mount type 'bind'" ∨
      e = "cannot mix 'bind-*' options with mount type 'volume'" := by
  unfold MountOpt.validate at h
  split_ifs at h
  · cases h; exact Or.inl rfl
  · cases h; exact Or.inr (Or.inl rfl)
  · cases h; exact Or.inr (Or.inr (Or.inl rfl))
  · cases h; exact Or.inr (Or.inr (Or.inr rfl))

/-- An error of the loop is the error of the first field that fails: the fields
before it are processed without error. -/
theorem setFields_error_split {lib : Lib} {fields : List String} {e : String} :
    ∀ {mount0 : Mount}, MountOpt.setFields lib mount0 fields = .error e →
      ∃ (pre : List String) (field : String) (post : List String) (mount : Mount),
        fields = pre ++ field :: post ∧ MountOpt.setFields lib mount0 pre = .ok mount ∧
        MountOpt.setField lib mount field = .error e := by
  induction fields with
  | nil =>
    intro mount0 h
    unfold MountOpt.setFields at h
    cases h
  | cons f rest ih =>
    intro mount0 h
    cases hf : MountOpt.setField lib mount0 f with
    | error e1 =>
      rw [MountOpt.setFields, hf] at h
      cases h
      exact ⟨[], f, rest, mount0, rfl, by rw [MountOpt.setFields], hf⟩
    | ok mount1 =>
      rw [MountOpt.setFields, hf] at h
      obtain ⟨pre, field, post, mount, hsplit, hpre, hfield⟩ := ih h
      refine ⟨f :: pre, field, post, mount, by rw [hsplit]; rfl, ?_, hfield⟩
      rw [MountOpt.setFields, hf]
      exact hpre

/-- The errors of the loop body, exactly: each is the error of its field in one
of the four forms of `errorOfField`. -/
theorem setField_error_exact {lib : Lib} {mount : Mount} {field e : String}
    (h : MountOpt.setField lib mount field = .error e) : errorOfField lib field e := by
  unfold errorOfField
  rcases strings.SplitN_two field with ⟨hs, _⟩ | ⟨k, v, hs, _, _⟩
  · left
    have hval : fieldValue field = none := by simp [fieldValue, hs]
    rw [setField_bare lib mount field hs] at h
    split_ifs at h
    cases h
    exact ⟨hval, rfl, occursIn_append _ _ _⟩
  · right
    have hkey : fieldKey lib field = lib.ToLower k := by simp [fieldKey, hs]
    have hval : fieldValue field = some v := by simp [fieldValue, hs]
    rw [setField_pair lib mount field k v hs] at h
    rw [hkey]
    refine ⟨v, hval, ?_⟩
    unfold isReadOnlyKey
    rcases setValue_cases lib mount field (lib.ToLower k) v with
      ⟨c, hr⟩ | ⟨c, hr⟩ | ⟨c, hr⟩ | ⟨c, hr⟩ | ⟨c, hr⟩ | ⟨c, hr⟩ | ⟨c, hr⟩ | ⟨c, hr⟩ |
      ⟨c, hr⟩ | ⟨c, hr⟩ | ⟨c, hr⟩ | ⟨c, hr⟩ <;> rw [hr] at h
    · cases h
    · cases h
    · cases h
    · cases hb : strconv.ParseBool v <;> rw [hb] at h <;> cases h
      exact Or.inr (Or.inl ⟨Or.inl c, rfl,
        ⟨"invalid value for ".data, (": " ++ v).data, by simp⟩, occursIn_append_left _ _⟩)
    · cases hb : lib.RAMInBytes v <;> rw [hb] at h <;> cases h
      exact Or.inr (Or.inl ⟨Or.inr (Or.inl c), rfl,
        ⟨"invalid value for ".data, (": " ++ v).data, by simp⟩, occursIn_append_left _ _⟩)
    · cases hb : strconv.Atoi v <;> rw [hb] at h <;> cases h
      exact Or.inr (Or.inl ⟨Or.inr (Or.inr c), rfl,
        ⟨"invalid value for ".data, (": " ++ v).data, by simp⟩, occursIn_append_left _ _⟩)
    · cases h
    · cases hb : strconv.ParseBool v <;> rw [hb] at h <;> cases h
      exact Or.inr (Or.inr ⟨c, ⟨"populate", rfl⟩, occursIn_append_left _ _⟩)
    · cases h
    · cases h
    · cases h
    · cases h
      exact Or.inl ⟨c, rfl,
        ⟨"unexpected key '".data, ("' in '" ++ field ++ "'").data, by simp⟩,
        ⟨("unexpected key '" ++ lib.ToLower k ++ "' in '").data, "'".data, by simp⟩⟩

/-- C10 (as stated) fails: on `target=/b,ro=maybe` the field `ro=maybe` makes `Set`
fail, and the message `invalid value for ro: maybe` does not hold that field. -/
theorem C10_counterexample_invalid_value :
    MountOpt.Set (goLib noRAM) ⟨[]⟩ "target=/b,ro=maybe"
      = (⟨[]⟩, some "invalid value for ro: maybe") ∧
    ¬ occursIn "ro=maybe" "invalid value for ro: maybe" := by
  decide

/-- C10 (amended): when the record is read and `Set` returns the error `e`, either
every field was processed and `e` is one of the four errors of the final
checks, or `e` is the error of the first field that fails, the fields before
it being processed without error, and then `e` names that very field as
`errorOfField` says: the `must be a key=value pair` error and the
`unexpected key` error hold that field verbatim; an invalid-value error has
the form `invalid value for <name>: <value>` with the value of that field
verbatim, where for the keys readonly, ro, max-bandwidth and max-iops
`<name>` is the lower-cased key. -/
theorem C10_error_names_field (lib : Lib) (m : MountOpt) (value e : String)
    (fields : List String) (hcsv : lib.csvRead value = .ok fields)
    (h : (MountOpt.Set lib m value).2 = some e) :
    ((∃ mount, MountOpt.setFields lib { Mount.zero with Type_ := TypeVolume } fields
          = .ok mount) ∧
      (e = "type is required" ∨ e = "target is required" ∨
        e = "cannot mix 'volume-*' options with mount type 'bind'" ∨
        e = "cannot mix 'bind-*' options with mount type 'volume'")) ∨
    ∃ (pre : List String) (field : String) (post : List String) (mount : Mount),
      fields = pre ++ field :: post ∧
      MountOpt.setFields lib { Mount.zero with Type_ := TypeVolume } pre = .ok mount ∧
      MountOpt.setField lib mount field = .error e ∧
      errorOfField lib field e := by
  have hp := ((Set_error_iff lib m value e).mp h).1
  unfold MountOpt.parse at hp
  rw [hcsv] at hp
  simp only at hp
  cases hfs : MountOpt.setFields lib { Mount.zero with Type_ := TypeVolume } fields with
  | error e1 =>
    rw [hfs] at hp
    cases hp
    obtain ⟨pre, field, post, mount, hsplit, hpre, hf⟩ := setFields_error_split hfs
    exact Or.inr ⟨pre, field, post, mount, hsplit, hpre, hf, setField_error_exact hf⟩
  | ok mount =>
    rw [hfs] at hp
    exact Or.inl ⟨⟨mount, rfl⟩, validate_error hp⟩

/-- C10 (amended) at the record `Bogus=1,volume-nocopy=`: the error is the one of
the first field, `Bogus=1`, and holds it as written. -/
theorem C10_error_names_field_witness :
    (MountOpt.Set (goLib noRAM) ⟨[]⟩ "Bogus=1,volume-nocopy=").2
      = some "unexpected key 'bogus' in 'Bogus=1'" ∧
    (((∃ mount, MountOpt.setFields (goLib noRAM) { Mount.zero with Type_ := TypeVolume }
          ["Bogus=1", "volume-nocopy="] = .ok mount) ∧
      (("unexpected key 'bogus' in 'Bogus=1'" : String) = "type is required" ∨
        ("unexpected key 'bogus' in 'Bogus=1'" : String) = "target is required" ∨
        ("unexpected key 'bogus' in 'Bogus=1'" : String)
          = "cannot mix 'volume-*' options with mount type 'bind'" ∨
        ("unexpected key 'bogus' in 'Bogus=1'" : String)
          = "cannot mix 'bind-*' options with mount type 'volume'")) ∨
    ∃ (pre : List String) (field : String) (post : List String) (mount : Mount),
      ["Bogus=1", "volume-nocopy="] = pre ++ field :: post ∧
      MountOpt.setFields (goLib noRAM) { Mount.zero with Type_ := TypeVolume } pre
        = .ok mount ∧
      MountOpt.setField (goLib noRAM) mount field
        = .error "unexpected key 'bogus' in 'Bogus=1'" ∧
      errorOfField (goLib noRAM) field "unexpected key 'bogus' in 'Bogus=1'") ∧
    ¬ errorOfField (goLib noRAM) "volume-nocopy=" "unexpected key 'bogus' in 'Bogus=1'" :=
  ⟨by decide,
   C10_error_names_field (goLib noRAM) ⟨[]⟩ "Bogus=1,volume-nocopy="
     "unexpected key 'bogus' in 'Bogus=1'" ["Bogus=1", "volume-nocopy="]
     (by decide) (by decide),
   by
     unfold errorOfField
     rintro (⟨hv, _⟩ | ⟨v, hv, h⟩)
     · exact absurd hv (by decide)
     · have hv1 : v = "" := by
         have h0 : fieldValue "volume-nocopy=" = some "" := by decide
         rw [h0] at hv
         exact (Option.some.inj hv).symm
       subst hv1
       rcases h with ⟨hk, _⟩ | ⟨hk, _⟩ | ⟨_, ⟨name, hname⟩, _⟩
       · exact hk (by decide)
       · exact absurd hk (by decide)
       · have hd := congrArg (fun s : String => s.data.head?) hname
         simp [String.data_append] at hd⟩

/-- The `switch` of `Set` on the key `type`. -/
theorem setValue_type (lib : Lib) (mount : Mount) (field value : String) :
    MountOpt.setValue lib mount field "type" value
      = .ok { mount with Type_ := lib.ToLower value } := by
  unfold MountOpt.setValue
  rw [if_pos rfl]

/-- The `switch` of `Set` on the keys `target`, `dst` and `destination`. -/
theorem setValue_target (lib : Lib) (mount : Mount) (field key value : String)
    (hk : isTargetKey key) :
    MountOpt.setValue lib mount field key value = .ok { mount with Target := value } := by
  unfold MountOpt.setValue
  rcases hk with hk | hk | hk <;> subst hk <;>
    rw [if_neg (by decide), if_neg (by decide), if_pos (by decide)]

/-- The `switch` of `Set` on the keys `source` and `src`. -/
theorem setValue_source (lib : Lib) (mount : Mount) (field key value : String)
    (hk : key = "source" ∨ key = "src") :
    MountOpt.setValue lib mount field key value = .ok { mount with Source := value } := by
  unfold MountOpt.setValue
  rcases hk with hk | hk <;> subst hk <;> rw [if_neg (by decide), if_pos (by decide)]

/-- Every error of the loop body starts with the letter `i` or the letter `u`. -/
theorem setField_error_head {lib : Lib} {mount : Mount} {field e : String}
    (h : MountOpt.setField lib mount field = .error e) :
    e.data.head? = some 'i' ∨ e.data.head? = some 'u' := by
  rcases strings.SplitN_two field with ⟨hs, _⟩ | ⟨k, v, hs, _, _⟩
  · rw [setField_bare lib mount field hs] at h
    split_ifs at h
    cases h
    left
    simp [String.data_append]
  · rw [setField_pair lib mount field k v hs] at h
    rcases setValue_cases lib mount field (lib.ToLower k) v with
      ⟨c, hr⟩ | ⟨c, hr⟩ | ⟨c, hr⟩ | ⟨c, hr⟩ | ⟨c, hr⟩ | ⟨c, hr⟩ | ⟨c, hr⟩ | ⟨c, hr⟩ |
      ⟨c, hr⟩ | ⟨c, hr⟩ | ⟨c, hr⟩ | ⟨c, hr⟩ <;> rw [hr] at h
    · cases h
    · cases h
    · cases h
    · cases hb : strconv.ParseBool v <;> rw [hb] at h <;> cases h
      left; simp [String.data_append]
    · cases hb : lib.RAMInBytes v <;> rw [hb] at h <;> cases h
      left; simp [String.data_append]
    · cases hb : strconv.Atoi v <;> rw [hb] at h <;> cases h
      left; simp [String.data_append]
    · cases h
    · cases hb : strconv.ParseBool v <;> rw [hb] at h <;> cases h
      left; simp [String.data_append]
    · cases h
    · cases h
    · cases h
    · cases h
      right; simp [String.data_append]

/-- The loop over a field that is processed without error, followed by more fields. -/
theorem setFields_cons_of_ok {lib : Lib} {mount mount1 : Mount} {f : String}
    (rest : List String) (h : MountOpt.setField lib mount f = .ok mount1) :
    MountOpt.setFields lib mount (f :: rest) = MountOpt.setFields lib mount1 rest := by
  rw [MountOpt.setFields, h]

/-! ## C11: the value of `type` -/

/-- C11 (as stated) fails: for the empty value of `type` and the target `/b`, the
record `type=,target=/b` makes `Set` fail, with the `type is required` error,
which is therefore reachable. -/
theorem C11_counterexample_empty_type :
    MountOpt.Set (goLib noRAM) ⟨[]⟩ "type=,target=/b" = (⟨[]⟩, some "type is required") := by
  decide

/-- C11 (amended): for a record of two fields, `type=v` and a target field with
the non-empty value `t`: when the lower-cased `v` is non-empty, `Set` succeeds
and appends the descriptor with that kind and the target `t`, all else at its
default, whatever the kind is; when the lower-cased `v` is empty, `Set` fails
with the `type is required` error. -/
theorem C11_type_value_unchecked (lib : Lib) (m : MountOpt) (value f1 f2 k1 v k2 t : String)
    (hcsv : lib.csvRead value = .ok [f1, f2])
    (h1 : strings.SplitN f1 '=' 2 = [k1, v]) (hk1 : lib.ToLower k1 = "type")
    (h2 : strings.SplitN f2 '=' 2 = [k2, t]) (hk2 : isTargetKey (lib.ToLower k2))
    (ht : t ≠ "") :
    (lib.ToLower v ≠ "" → MountOpt.Set lib m value =
      ({ values := m.values ++ [{ Mount.zero with Type_ := lib.ToLower v, Target := t }] },
        none)) ∧
    (lib.ToLower v = "" → MountOpt.Set lib m value = (m, some "type is required")) := by
  have hf1 := setField_pair lib { Mount.zero with Type_ := TypeVolume } f1 k1 v h1
  rw [hk1, setValue_type] at hf1
  have hf2 := setField_pair lib
    { Mount.zero with Type_ := lib.ToLower v } f2 k2 t h2
  rw [setValue_target lib _ f2 _ t hk2] at hf2
  have hfields : MountOpt.setFields lib { Mount.zero with Type_ := TypeVolume } [f1, f2]
      = .ok { Mount.zero with Type_ := lib.ToLower v, Target := t } := by
    rw [setFields_cons_of_ok _ hf1, setFields_cons_of_ok _ hf2]
    rfl
  have hparse := parse_eq_validate hcsv hfields
  constructor
  · intro hv
    have hval : MountOpt.validate { Mount.zero with Type_ := lib.ToLower v, Target := t }
        = .ok { Mount.zero with Type_ := lib.ToLower v, Target := t } := by
      rw [validate_of_nonempty hv ht]
      simp [Mount.zero]
    unfold MountOpt.Set
    rw [hparse, hval]
  · intro hv
    have hval : MountOpt.validate { Mount.zero with Type_ := lib.ToLower v, Target := t }
        = .error "type is required" := by
      unfold MountOpt.validate
      rw [if_pos hv]
    unfold MountOpt.Set
    rw [hparse, hval]

/-- C11 (amended) at the record `type=Fancy,target=/b`: the kind `fancy` is accepted. -/
theorem C11_type_value_unchecked_witness :
    MountOpt.Set (goLib noRAM) ⟨[]⟩ "type=Fancy,target=/b" =
      (⟨[{ Mount.zero with Type_ := "fancy", Target := "/b" }]⟩, none) :=
  (C11_type_value_unchecked (goLib noRAM) ⟨[]⟩ "type=Fancy,target=/b" "type=Fancy" "target=/b"
    "type" "Fancy" "target" "/b" (by decide) (by decide) (by decide) (by decide) (by decide)
    (by decide)).1 (by decide)

/-- The loop over a field that fails, followed by more fields. -/
theorem setFields_cons_of_error {lib : Lib} {mount : Mount} {f e : String}
    (rest : List String) (h : MountOpt.setField lib mount f = .error e) :
    MountOpt.setFields lib mount (f :: rest) = .error e := by
  rw [MountOpt.setFields, h]

/-- Two fields with the same effect on every mount can replace each other in a record. -/
theorem setFields_congr_field {lib : Lib} {f1 f2 : String}
    (h : ∀ mount, MountOpt.setField lib mount f1 = MountOpt.setField lib mount f2)
    (post : List String) :
    ∀ (pre : List String) (mount : Mount),
      MountOpt.setFields lib mount (pre ++ f1 :: post)
        = MountOpt.setFields lib mount (pre ++ f2 :: post) := by
  intro pre
  induction pre with
  | nil =>
    intro mount
    simp only [List.nil_append]
    rw [MountOpt.setFields, MountOpt.setFields, h mount]
  | cons g rest ih =>
    intro mount
    simp only [List.cons_append]
    cases hg : MountOpt.setField lib mount g with
    | error e => rw [setFields_cons_of_error _ hg, setFields_cons_of_error _ hg]
    | ok mount1 => rw [setFields_cons_of_ok _ hg, setFields_cons_of_ok _ hg, ih mount1]

/-- The `switch` of `Set` on the keys `readonly` and `ro`. -/
theorem setValue_readonly (lib : Lib) (mount : Mount) (field key value : String)
    (hk : key = "readonly" ∨ key = "ro") :
    MountOpt.setValue lib mount field key value =
      match strconv.ParseBool value with
      | none => .error ("invalid value for " ++ key ++ ": " ++ value)
      | some b => .ok { mount with ReadOnly := b } := by
  unfold MountOpt.setValue
  rcases hk with hk | hk <;> subst hk <;>
    rw [if_neg (by decide), if_neg (by decide), if_neg (by decide), if_pos (by decide)]

/-- The `switch` of `Set` on the key `volume-nocopy`. -/
theorem setValue_volume_nocopy (lib : Lib) (mount : Mount) (field value : String) :
    MountOpt.setValue lib mount field "volume-nocopy" value =
      match strconv.ParseBool value with
      | none => .error ("invalid value for populate: " ++ value)
      | some b => .ok { mount with
          VolumeOptions := some { (MountOpt.volumeOptions mount).1 with NoCopy := b } } := by
  unfold MountOpt.setValue
  rw [if_neg (by decide), if_neg (by decide), if_neg (by decide), if_neg (by decide),
    if_neg (by decide), if_neg (by decide), if_neg (by decide), if_pos (by decide)]

/-! ## C12: the flag keys -/

/-- C12: for a field `bare` with no `=` whose lower-cased key is `readonly`, `ro`
or `volume-nocopy`, and a field `pair` of the form `k=true` whose key has the
same lower-cased form: the two fields have the same effect on every mount
(`ReadOnly`, resp. `NoCopy` of the volume options, becomes true), so a record
with `bare` and the record with `pair` in its place give the same outcome of
`Set`; and a field `k=v` of such a key whose value parses as the boolean `b`
sets `ReadOnly`, resp. `NoCopy`, to `b`. -/
theorem C12_flag_keys (lib : Lib) (bare pair k : String) (hno : '=' ∉ bare.data)
    (hpair : strings.SplitN pair '=' 2 = [k, "true"])
    (hsame : lib.ToLower k = lib.ToLower bare)
    (hkey : lib.ToLower bare = "readonly" ∨ lib.ToLower bare = "ro"
      ∨ lib.ToLower bare = "volume-nocopy") :
    (∀ mount, MountOpt.setField lib mount bare = MountOpt.setField lib mount pair) ∧
    (∀ mount, MountOpt.setField lib mount bare =
      if lib.ToLower bare = "volume-nocopy" then
        .ok { mount with
          VolumeOptions := some { (MountOpt.volumeOptions mount).1 with NoCopy := true } }
      else .ok { mount with ReadOnly := true }) ∧
    (∀ (m : MountOpt) (v1 v2 : String) (pre post : List String),
      lib.csvRead v1 = .ok (pre ++ bare :: post) → lib.csvRead v2 = .ok (pre ++ pair :: post) →
      MountOpt.Set lib m v1 = MountOpt.Set lib m v2) ∧
    (∀ (mount : Mount) (field k1 v : String) (b : Bool),
      strings.SplitN field '=' 2 = [k1, v] → lib.ToLower k1 = lib.ToLower bare →
      strconv.ParseBool v = some b →
      MountOpt.setField lib mount field =
        if lib.ToLower bare = "volume-nocopy" then
          .ok { mount with
            VolumeOptions := some { (MountOpt.volumeOptions mount).1 with NoCopy := b } }
        else .ok { mount with ReadOnly := b }) := by
  have hs := strings.SplitN_two_of_not_mem hno
  have hvalue : ∀ (mount : Mount) (field k1 v : String) (b : Bool),
      strings.SplitN field '=' 2 = [k1, v] → lib.ToLower k1 = lib.ToLower bare →
      strconv.ParseBool v = some b →
      MountOpt.setField lib mount field =
        if lib.ToLower bare = "volume-nocopy" then
          .ok { mount with
            VolumeOptions := some { (MountOpt.volumeOptions mount).1 with NoCopy := b } }
        else .ok { mount with ReadOnly := b } := by
    intro mount field k1 v b hf hk1 hb
    rw [setField_pair lib mount field k1 v hf, hk1]
    rcases hkey with hkey | hkey | hkey
    · rw [setValue_readonly lib mount field _ v (Or.inl hkey), hb, hkey, if_neg (by decide)]
    · rw [setValue_readonly lib mount field _ v (Or.inr hkey), hb, hkey, if_neg (by decide)]
    · rw [hkey, setValue_volume_nocopy, hb, if_pos rfl]
  have hbare : ∀ mount, MountOpt.setField lib mount bare =
      if lib.ToLower bare = "volume-nocopy" then
        .ok { mount with
          VolumeOptions := some { (MountOpt.volumeOptions mount).1 with NoCopy := true } }
      else .ok { mount with ReadOnly := true } := by
    intro mount
    rw [setField_bare lib mount bare hs]
    rcases hkey with hkey | hkey | hkey
    · rw [if_pos (Or.inl hkey), hkey, if_neg (by decide)]
    · rw [if_pos (Or.inr hkey), hkey, if_neg (by decide)]
    · rw [hkey, if_neg (by decide), if_pos rfl, if_pos rfl]
  have heq : ∀ mount, MountOpt.setField lib mount bare = MountOpt.setField lib mount pair := by
    intro mount
    rw [hbare mount, hvalue mount pair k "true" true hpair hsame (by decide)]
  refine ⟨heq, hbare, ?_, hvalue⟩
  intro m v1 v2 pre post h1 h2
  unfold MountOpt.Set MountOpt.parse
  rw [h1, h2]
  simp only
  rw [setFields_congr_field heq post pre]

/-- C12 at the records `target=/b,ro`, `target=/b,ro=true` and `target=/b,RO=false`. -/
theorem C12_flag_keys_witness :
    MountOpt.Set (goLib noRAM) ⟨[]⟩ "target=/b,ro"
      = (⟨[{ Mount.zero with Type_ := "volume", Target := "/b", ReadOnly := true }]⟩, none) ∧
    MountOpt.Set (goLib noRAM) ⟨[]⟩ "target=/b,ro"
      = MountOpt.Set (goLib noRAM) ⟨[]⟩ "target=/b,ro=true" ∧
    MountOpt.setField (goLib noRAM)
        { Mount.zero with Type_ := "volume", Target := "/b", ReadOnly := true } "RO=false"
      = .ok { Mount.zero with Type_ := "volume", Target := "/b", ReadOnly := false } :=
  ⟨by decide,
   (C12_flag_keys (goLib noRAM) "ro" "ro=true" "ro" (by decide) (by decide) (by decide)
      (by decide)).2.2.1 ⟨[]⟩ "target=/b,ro" "target=/b,ro=true" ["target=/b"] []
      (by decide) (by decide),
   (C12_flag_keys (goLib noRAM) "ro" "ro=true" "ro" (by decide) (by decide) (by decide)
      (by decide)).2.2.2 { Mount.zero with Type_ := "volume", Target := "/b", ReadOnly := true }
      "RO=false" "RO" "false" false (by decide) (by decide) (by decide)⟩

/-! ## What a field leaves unchanged -/

/-- The labels that the closure `volumeOptions` returns are the labels of the mount. -/
theorem volumeOptions_labels (mount : Mount) :
    (MountOpt.volumeOptions mount).1.Labels = labelsOf mount.VolumeOptions := by
  unfold MountOpt.volumeOptions
  cases mount.VolumeOptions <;> rfl

/-- The driver options that the closure `volumeOptions` returns are the driver
options of the mount. -/
theorem volumeOptions_options (mount : Mount) :
    (MountOpt.volumeOptions mount).2.Options.getD [] = driverOptionsOf mount.VolumeOptions := by
  unfold MountOpt.volumeOptions
  obtain ⟨_, _, _, _, _, vo, _, _⟩ := mount
  cases vo with
  | none => rfl
  | some vo =>
    obtain ⟨_, _, dc⟩ := vo
    cases dc <;> rfl

/-- The label map of volume options that are present. -/
theorem labelsOf_some (vo : VolumeOptions) : labelsOf (some vo) = vo.Labels := rfl

/-- The driver options of volume options with a driver configuration. -/
theorem driverOptionsOf_mk (noCopy : Bool) (labels : StringMap) (d : Driver) :
    driverOptionsOf (some { NoCopy := noCopy, Labels := labels, DriverConfig := some d })
      = d.Options.getD [] := rfl

/-- The driver configuration of the volume options that the closure `volumeOptions`
returns is the driver configuration it returns. -/
theorem volumeOptions_driver (mount : Mount) :
    (MountOpt.volumeOptions mount).1.DriverConfig = some (MountOpt.volumeOptions mount).2 := by
  unfold MountOpt.volumeOptions
  rfl

/-- The effect of a field `key=value` that is processed without error on the
source, the bind options and the two maps, and the components it leaves
unchanged. -/
theorem setValue_ok_frame {lib : Lib} {mount d : Mount} {field key value : String}
    (h : MountOpt.setValue lib mount field key value = .ok d) :
    d.Source = (if isSourceKey key then value else mount.Source) ∧
    (¬ isReadOnlyKey key → d.ReadOnly = mount.ReadOnly) ∧
    (key ≠ "max-bandwidth" → d.MaxBandwidth = mount.MaxBandwidth) ∧
    (key ≠ "max-iops" → d.MaxIOps = mount.MaxIOps) ∧
    d.BindOptions = (if key = "bind-propagation" then some { Propagation := lib.ToLower value }
      else mount.BindOptions) ∧
    labelsOf d.VolumeOptions = (if key = "volume-label" then MountOpt.setValueOnMap (labelsOf mount.VolumeOptions) value
      else labelsOf mount.VolumeOptions) ∧
    driverOptionsOf d.VolumeOptions = (if key = "volume-opt" then
        MountOpt.setValueOnMap (driverOptionsOf mount.VolumeOptions) value
      else driverOptionsOf mount.VolumeOptions) := by
  unfold isSourceKey isReadOnlyKey
  have hl := volumeOptions_labels mount
  have ho := volumeOptions_options mount
  have hd := volumeOptions_driver mount
  rcases setValue_cases lib mount field key value with
    ⟨hk, hr⟩ | ⟨hk, hr⟩ | ⟨hk, hr⟩ | ⟨hk, hr⟩ | ⟨hk, hr⟩ | ⟨hk, hr⟩ | ⟨hk, hr⟩ | ⟨hk, hr⟩ |
    ⟨hk, hr⟩ | ⟨hk, hr⟩ | ⟨hk, hr⟩ | ⟨hk, hr⟩ <;> rw [hr] at h
  · cases h; subst hk; simp
  · cases h; rcases hk with hk | hk <;> subst hk <;> simp
  · cases h; rcases hk with hk | hk | hk <;> subst hk <;> simp
  · cases hb : strconv.ParseBool value <;> rw [hb] at h <;> cases h
    rcases hk with hk | hk <;> subst hk <;> simp
  · cases hb : lib.RAMInBytes value <;> rw [hb] at h <;> cases h
    subst hk; simp
  · cases hb : strconv.Atoi value <;> rw [hb] at h <;> cases h
    subst hk; simp
  · cases h; subst hk; simp
  · cases hb : strconv.ParseBool value <;> rw [hb] at h <;> cases h
    subst hk
    simp [labelsOf_some, driverOptionsOf_mk, hd, hl, ho]
  · cases h; subst hk
    simp [labelsOf_some, driverOptionsOf_mk, hd, hl, ho]
  · cases h; subst hk
    simp [labelsOf_some, driverOptionsOf_mk, hd, hl, ho]
  · cases h; subst hk
    simp [labelsOf_some, driverOptionsOf_mk, hd, hl, ← ho]
    cases (MountOpt.volumeOptions mount).2.Options <;> rfl
  · cases h

/-- The effect of a field that is processed without error on the source, the bind
options and the two maps, and the components it leaves unchanged. -/
theorem setField_ok_frame {lib : Lib} {mount d : Mount} {field : String}
    (h : MountOpt.setField lib mount field = .ok d) :
    d.Source = (if isSourceKey (fieldKey lib field) then (fieldValue field).getD ""
      else mount.Source) ∧
    (¬ isReadOnlyKey (fieldKey lib field) → d.ReadOnly = mount.ReadOnly) ∧
    (fieldKey lib field ≠ "max-bandwidth" → d.MaxBandwidth = mount.MaxBandwidth) ∧
    (fieldKey lib field ≠ "max-iops" → d.MaxIOps = mount.MaxIOps) ∧
    d.BindOptions = (if fieldKey lib field = "bind-propagation" then
        some { Propagation := lib.ToLower ((fieldValue field).getD "") }
      else mount.BindOptions) ∧
    labelsOf d.VolumeOptions = (if fieldKey lib field = "volume-label" then
        MountOpt.setValueOnMap (labelsOf mount.VolumeOptions) ((fieldValue field).getD "")
      else labelsOf mount.VolumeOptions) ∧
    driverOptionsOf d.VolumeOptions = (if fieldKey lib field = "volume-opt" then
        MountOpt.setValueOnMap (driverOptionsOf mount.VolumeOptions)
          ((fieldValue field).getD "")
      else driverOptionsOf mount.VolumeOptions) := by
  rcases strings.SplitN_two field with ⟨hs, _⟩ | ⟨k, v, hs, _, _⟩
  · have hkey : fieldKey lib field = lib.ToLower field := by simp [fieldKey, hs]
    rw [setField_bare lib mount field hs] at h
    rw [hkey]
    unfold isSourceKey isReadOnlyKey
    by_cases h1 : lib.ToLower field = "readonly" ∨ lib.ToLower field = "ro"
    · rw [if_pos h1] at h
      cases h
      rcases h1 with h1 | h1 <;> rw [h1] <;> simp
    · rw [if_neg h1] at h
      by_cases h2 : lib.ToLower field = "volume-nocopy"
      · rw [if_pos h2] at h
        cases h
        rw [h2]
        simp [labelsOf_some, driverOptionsOf_mk, volumeOptions_driver, volumeOptions_labels,
          volumeOptions_options]
      · rw [if_neg h2] at h
        cases h
  · have hkey : fieldKey lib field = lib.ToLower k := by simp [fieldKey, hs]
    have hval : (fieldValue field).getD "" = v := by simp [fieldValue, hs]
    rw [setField_pair lib mount field k v hs] at h
    rw [hkey, hval]
    exact setValue_ok_frame h

/-! ## Splitting the loop -/

/-- The loop over two lists of fields, one after the other. -/
theorem setFields_append_ok {lib : Lib} {post : List String} {d : Mount} :
    ∀ {pre : List String} {mount : Mount},
      MountOpt.setFields lib mount (pre ++ post) = .ok d →
      ∃ mount1, MountOpt.setFields lib mount pre = .ok mount1 ∧
        MountOpt.setFields lib mount1 post = .ok d := by
  intro pre
  induction pre with
  | nil =>
    intro mount h
    exact ⟨mount, by rw [MountOpt.setFields], h⟩
  | cons f rest ih =>
    intro mount h
    rw [List.cons_append] at h
    obtain ⟨mount1, hf, hrest⟩ := setFields_cons_ok h
    obtain ⟨mount2, h2, h3⟩ := ih hrest
    exact ⟨mount2, by rw [setFields_cons_of_ok _ hf]; exact h2, h3⟩

/-- A component of the mount that every field outside a class leaves unchanged is
unchanged by a loop over fields outside that class. -/
theorem setFields_frame {α : Type} {lib : Lib} (proj : Mount → α) (P : String → Prop)
    (hframe : ∀ (mount d : Mount) (field : String),
      MountOpt.setField lib mount field = .ok d → ¬ P field → proj d = proj mount) :
    ∀ (fields : List String) (mount d : Mount),
      MountOpt.setFields lib mount fields = .ok d → (∀ g ∈ fields, ¬ P g) →
      proj d = proj mount := by
  intro fields
  induction fields with
  | nil =>
    intro mount d h _
    rw [MountOpt.setFields] at h
    cases h
    rfl
  | cons f rest ih =>
    intro mount d h hP
    obtain ⟨mount1, hf, hrest⟩ := setFields_cons_ok h
    rw [ih mount1 d hrest (fun g hg => hP g (List.mem_cons_of_mem f hg))]
    exact hframe mount mount1 f hf (hP f (List.mem_cons_self f rest))

/-- When the record is read and `Set` returns no error, the loop has processed
every field without error, the final checks have passed and `Set` has appended
the mount. -/
theorem Set_ok_fields {lib : Lib} {m : MountOpt} {value : String} {fields : List String}
    (hcsv : lib.csvRead value = .ok fields) (hok : (MountOpt.Set lib m value).2 = none) :
    ∃ d, MountOpt.setFields lib { Mount.zero with Type_ := TypeVolume } fields = .ok d ∧
      MountOpt.validate d = .ok d ∧
      MountOpt.Set lib m value = ({ values := m.values ++ [d] }, none) := by
  obtain ⟨d, hp, hs⟩ := (Set_ok_iff lib m value).mp hok
  have hv := parse_ok_validate hp
  refine ⟨d, ?_, hv, hs⟩
  unfold MountOpt.parse at hp
  rw [hcsv] at hp
  simp only at hp
  cases hfs : MountOpt.setFields lib { Mount.zero with Type_ := TypeVolume } fields with
  | error e => rw [hfs] at hp; cases hp
  | ok mount =>
    rw [hfs] at hp
    rw [validate_ok_eq hp]

/-- A field that is processed without error and whose key requires a value has
the form `k=v`. -/
theorem setField_ok_pair {lib : Lib} {mount d : Mount} {field : String}
    (h : MountOpt.setField lib mount field = .ok d)
    (hkey : ¬ isReadOnlyKey (fieldKey lib field) ∧ fieldKey lib field ≠ "volume-nocopy") :
    ∃ k v : String, strings.SplitN field '=' 2 = [k, v] ∧ field = k ++ "=" ++ v ∧
      '=' ∉ k.data ∧ fieldKey lib field = lib.ToLower k ∧ fieldValue field = some v := by
  rcases strings.SplitN_two field with ⟨hs, _⟩ | ⟨k, v, hs, hf, hk⟩
  · exfalso
    have hk : fieldKey lib field = lib.ToLower field := by simp [fieldKey, hs]
    rw [hk] at hkey
    unfold isReadOnlyKey at hkey
    rw [setField_bare lib mount field hs, if_neg hkey.1, if_neg hkey.2] at h
    cases h
  · exact ⟨k, v, hs, hf, hk, by simp [fieldKey, hs], by simp [fieldValue, hs]⟩

/-! ## C13: the last target and the last source -/

/-- C13: when the record is read, `Set` succeeds and `f` is the last field of the
record whose key is target, dst or destination, then `f` is `k=v` with no `=`
in `k`, and the target of the appended descriptor is `v`, character for
character; the same holds for the source and the keys source and src. -/
theorem C13_last_write_wins (lib : Lib) (m : MountOpt) (value f : String)
    (pre post : List String) (hcsv : lib.csvRead value = .ok (pre ++ f :: post))
    (hok : (MountOpt.Set lib m value).2 = none) :
    (isTargetKey (fieldKey lib f) → (∀ g ∈ post, ¬ isTargetKey (fieldKey lib g)) →
      ∃ (k v : String) (d : Mount), f = k ++ "=" ++ v ∧ '=' ∉ k.data ∧
        (MountOpt.Set lib m value).1.Value = m.Value ++ [d] ∧ d.Target = v) ∧
    (isSourceKey (fieldKey lib f) → (∀ g ∈ post, ¬ isSourceKey (fieldKey lib g)) →
      ∃ (k v : String) (d : Mount), f = k ++ "=" ++ v ∧ '=' ∉ k.data ∧
        (MountOpt.Set lib m value).1.Value = m.Value ++ [d] ∧ d.Source = v) := by
  obtain ⟨d, hfs, _, hs⟩ := Set_ok_fields hcsv hok
  obtain ⟨mount1, _, h1⟩ := setFields_append_ok hfs
  obtain ⟨mount2, hf, hpost⟩ := setFields_cons_ok h1
  have hval : (MountOpt.Set lib m value).1.Value = m.Value ++ [d] := by rw [hs]; rfl
  constructor
  · intro hkey hlast
    have hreq : ¬ isReadOnlyKey (fieldKey lib f) ∧ fieldKey lib f ≠ "volume-nocopy" := by
      unfold isReadOnlyKey
      rcases hkey with hk | hk | hk <;> rw [hk] <;> decide
    obtain ⟨k, v, _, hkv, hk, _, hv⟩ := setField_ok_pair hf hreq
    refine ⟨k, v, d, hkv, hk, hval, ?_⟩
    have hframe := setFields_frame (fun mount : Mount => mount.Target)
      (fun g => isTargetKey (fieldKey lib g))
      (fun mount d field h hn => by
        have := (setField_ok_effect h).2.1
        rw [if_neg hn] at this
        exact this) post mount2 d hpost hlast
    have h2 := (setField_ok_effect hf).2.1
    rw [if_pos hkey, hv] at h2
    exact hframe.trans h2
  · intro hkey hlast
    have hreq : ¬ isReadOnlyKey (fieldKey lib f) ∧ fieldKey lib f ≠ "volume-nocopy" := by
      unfold isReadOnlyKey
      rcases hkey with hk | hk <;> rw [hk] <;> decide
    obtain ⟨k, v, _, hkv, hk, _, hv⟩ := setField_ok_pair hf hreq
    refine ⟨k, v, d, hkv, hk, hval, ?_⟩
    have hframe := setFields_frame (fun mount : Mount => mount.Source)
      (fun g => isSourceKey (fieldKey lib g))
      (fun mount d field h hn => by
        have := (setField_ok_frame h).1
        rw [if_neg hn] at this
        exact this) post mount2 d hpost hlast
    have h2 := (setField_ok_frame hf).1
    rw [if_pos hkey, hv] at h2
    exact hframe.trans h2

/-- C13 at the record `target=/a,target=/b`, whose last target field is `target=/b`. -/
theorem C13_last_write_wins_witness :
    MountOpt.Set (goLib noRAM) ⟨[]⟩ "target=/a,target=/b"
      = (⟨[{ Mount.zero with Type_ := "volume", Target := "/b" }]⟩, none) ∧
    ∃ (k v : String) (d : Mount), "target=/b" = k ++ "=" ++ v ∧ '=' ∉ k.data ∧
      (MountOpt.Set (goLib noRAM) ⟨[]⟩ "target=/a,target=/b").1.Value
        = (MountOpt.mk []).Value ++ [d] ∧ d.Target = v :=
  ⟨by decide,
   (C13_last_write_wins (goLib noRAM) ⟨[]⟩ "target=/a,target=/b" "target=/b" ["target=/a"] []
      (by decide) (by decide)).1 (by decide) (by decide)⟩

/-! ## C14: the label map and the driver options -/

/-- Lookup after a map assignment. -/
theorem StringMap_get_set (target : StringMap) (k v x : String) :
    StringMap.get (StringMap.set target k v) x
      = if k = x then some v else StringMap.get target x := by
  induction target with
  | nil =>
    simp only [StringMap.set, StringMap.get]
  | cons p rest ih =>
    obtain ⟨k0, v0⟩ := p
    simp only [StringMap.set]
    by_cases h0 : k0 = k
    · rw [if_pos h0]
      simp only [StringMap.get]
      by_cases hx : k = x
      · rw [if_pos hx, if_pos hx]
      · rw [if_neg hx, if_neg hx, if_neg (by rw [h0]; exact hx)]
    · rw [if_neg h0]
      simp only [StringMap.get]
      by_cases h1 : k0 = x
      · rw [if_pos h1, if_pos h1, if_neg (by rw [← h1]; exact fun h => h0 h.symm)]
      · rw [if_neg h1, if_neg h1, ih]

/-- The closure `setValueOnMap` assigns the sub-value of the entry to its sub-key. -/
theorem setValueOnMap_eq (target : StringMap) (entry : String) :
    MountOpt.setValueOnMap target entry
      = StringMap.set target (entryKey entry) (entryValue entry) := by
  unfold MountOpt.setValueOnMap entryKey entryValue
  rcases strings.SplitN_two entry with ⟨hs, _⟩ | ⟨k, v, hs, _, _⟩
  · rw [hs]
    rfl
  · rw [hs]
    rfl

/-- Lookup in a map after a list of entries is processed in order. -/
theorem get_foldl_setValueOnMap (x : String) (entries : List String) :
    ∀ init : StringMap,
      StringMap.get (entries.foldl MountOpt.setValueOnMap init) x
        = match lastEntry x entries with
          | some v => some v
          | none => StringMap.get init x := by
  induction entries with
  | nil =>
    intro init
    rfl
  | cons entry rest ih =>
    intro init
    rw [List.foldl_cons, ih, lastEntry]
    cases hrest : lastEntry x rest with
    | some v => rfl
    | none =>
      simp only
      rw [setValueOnMap_eq, StringMap_get_set]
      by_cases hk : entryKey entry = x
      · rw [if_pos hk, if_pos hk]
      · rw [if_neg hk, if_neg hk]

/-- A map of the volume options that the fields of one key extend entry by entry,
after the loop: the entries of the fields of that key, processed in order. -/
theorem setFields_map_effect {lib : Lib} (proj : Mount → StringMap) (key : String)
    (hreq : ¬ isReadOnlyKey key ∧ key ≠ "volume-nocopy")
    (hstep : ∀ (mount d : Mount) (field : String),
      MountOpt.setField lib mount field = .ok d →
      proj d = if fieldKey lib field = key then
          MountOpt.setValueOnMap (proj mount) ((fieldValue field).getD "")
        else proj mount) :
    ∀ (fields : List String) (mount d : Mount),
      MountOpt.setFields lib mount fields = .ok d →
      proj d = (valuesOf lib key fields).foldl MountOpt.setValueOnMap (proj mount) := by
  intro fields
  induction fields with
  | nil =>
    intro mount d h
    rw [MountOpt.setFields] at h
    cases h
    rfl
  | cons f rest ih =>
    intro mount d h
    obtain ⟨mount1, hf, hrest⟩ := setFields_cons_ok h
    rw [ih mount1 d hrest, hstep mount mount1 f hf]
    unfold valuesOf
    by_cases hk : fieldKey lib f = key
    · obtain ⟨k, v, _, _, _, _, hv⟩ := setField_ok_pair hf (hk ▸ hreq)
      rw [if_pos hk, List.filterMap_cons, if_pos hk, hv]
      rfl
    · rw [if_neg hk, List.filterMap_cons, if_neg hk]

/-- C14: when the record is read and `Set` succeeds, the label map of the appended
descriptor is the map obtained from the empty map by processing the values of
the `volume-label` fields in the order of the record with `setValueOnMap`,
and its lookup at every sub-key `x` gives the sub-value of the last of these
values whose sub-key (the text before its first `=`) is `x`, with the empty
sub-value for a value with no `=`; the same holds for the driver options and
the `volume-opt` fields. -/
theorem C14_labels_and_driver_options (lib : Lib) (m : MountOpt) (value : String)
    (fields : List String) (hcsv : lib.csvRead value = .ok fields)
    (hok : (MountOpt.Set lib m value).2 = none) :
    ∃ d, (MountOpt.Set lib m value).1.Value = m.Value ++ [d] ∧
      labelsOf d.VolumeOptions
        = (valuesOf lib "volume-label" fields).foldl MountOpt.setValueOnMap [] ∧
      (∀ x, StringMap.get (labelsOf d.VolumeOptions) x
        = lastEntry x (valuesOf lib "volume-label" fields)) ∧
      driverOptionsOf d.VolumeOptions
        = (valuesOf lib "volume-opt" fields).foldl MountOpt.setValueOnMap [] ∧
      (∀ x, StringMap.get (driverOptionsOf d.VolumeOptions) x
        = lastEntry x (valuesOf lib "volume-opt" fields)) := by
  obtain ⟨d, hfs, _, hs⟩ := Set_ok_fields hcsv hok
  have hl := setFields_map_effect (fun mount : Mount => labelsOf mount.VolumeOptions)
    "volume-label" (by decide)
    (fun mount d field h => (setField_ok_frame h).2.2.2.2.2.1) fields _ d hfs
  have ho := setFields_map_effect (fun mount : Mount => driverOptionsOf mount.VolumeOptions)
    "volume-opt" (by decide)
    (fun mount d field h => (setField_ok_frame h).2.2.2.2.2.2) fields _ d hfs
  simp only at hl ho
  have hl0 : labelsOf d.VolumeOptions
      = (valuesOf lib "volume-label" fields).foldl MountOpt.setValueOnMap [] := hl
  have ho0 : driverOptionsOf d.VolumeOptions
      = (valuesOf lib "volume-opt" fields).foldl MountOpt.setValueOnMap [] := ho
  refine ⟨d, by rw [hs]; rfl, hl0, ?_, ho0, ?_⟩
  · intro x
    rw [hl0, get_foldl_setValueOnMap]
    cases lastEntry x (valuesOf lib "volume-label" fields) <;> rfl
  · intro x
    rw [ho0, get_foldl_setValueOnMap]
    cases lastEntry x (valuesOf lib "volume-opt" fields) <;> rfl

/-- C14 at the record `target=/b,volume-label=foo=bar,volume-label=baz`: the labels
are `foo: bar` and `baz` with the empty value. -/
theorem C14_labels_and_driver_options_witness :
    (MountOpt.Set (goLib noRAM) ⟨[]⟩ "target=/b,volume-label=foo=bar,volume-label=baz").2 = none ∧
    (MountOpt.Set (goLib noRAM) ⟨[]⟩
        "target=/b,volume-label=foo=bar,volume-label=baz").1.values.map
      (fun d => labelsOf d.VolumeOptions) = [[("foo", "bar"), ("baz", "")]] ∧
    ∃ d, (MountOpt.Set (goLib noRAM) ⟨[]⟩
          "target=/b,volume-label=foo=bar,volume-label=baz").1.Value
        = (MountOpt.mk []).Value ++ [d] ∧
      labelsOf d.VolumeOptions
        = (valuesOf (goLib noRAM) "volume-label"
            ["target=/b", "volume-label=foo=bar", "volume-label=baz"]).foldl
          MountOpt.setValueOnMap [] ∧
      (∀ x, StringMap.get (labelsOf d.VolumeOptions) x
        = lastEntry x (valuesOf (goLib noRAM) "volume-label"
            ["target=/b", "volume-label=foo=bar", "volume-label=baz"])) ∧
      driverOptionsOf d.VolumeOptions
        = (valuesOf (goLib noRAM) "volume-opt"
            ["target=/b", "volume-label=foo=bar", "volume-label=baz"]).foldl
          MountOpt.setValueOnMap [] ∧
      (∀ x, StringMap.get (driverOptionsOf d.VolumeOptions) x
        = lastEntry x (valuesOf (goLib noRAM) "volume-opt"
            ["target=/b", "volume-label=foo=bar", "volume-label=baz"])) :=
  ⟨by decide, by decide,
   C14_labels_and_driver_options (goLib noRAM) ⟨[]⟩
     "target=/b,volume-label=foo=bar,volume-label=baz"
     ["target=/b", "volume-label=foo=bar", "volume-label=baz"] (by decide) (by decide)⟩

/-! ## C15: the case of the keys -/

/-- The `switch` of `Set` on a key that is not recognized. -/
theorem setValue_unrecognized {lib : Lib} (mount : Mount) (field : String) {key : String}
    (value : String) (hkey : ¬ isRecognizedKey key) :
    MountOpt.setValue lib mount field key value
      = .error ("unexpected key '" ++ key ++ "' in '" ++ field ++ "'") := by
  rcases setValue_cases lib mount field key value with
    ⟨c, _⟩ | ⟨c, _⟩ | ⟨c, _⟩ | ⟨c, _⟩ | ⟨c, _⟩ | ⟨c, _⟩ | ⟨c, _⟩ | ⟨c, _⟩ |
    ⟨c, _⟩ | ⟨c, _⟩ | ⟨c, _⟩ | ⟨_, hr⟩
  all_goals first
    | exact hr
    | exact absurd (by unfold isRecognizedKey isVolumeKey; tauto) hkey

/-- The `switch` of `Set` on a recognized key does not depend on the text of the field. -/
theorem setValue_recognized {lib : Lib} (mount : Mount) (f g : String) {key : String}
    (value : String) (hkey : isRecognizedKey key) :
    MountOpt.setValue lib mount f key value = MountOpt.setValue lib mount g key value := by
  unfold isRecognizedKey isTargetKey isVolumeKey at hkey
  rcases hkey with h | (h | h) | (h | h | h) | (h | h) | h | h | h | (h | h | h | h) <;>
    subst h <;> rfl

/-- Two fields that differ in the case of the key have the same outcome in the
loop body, on every mount. -/
theorem setField_keyCaseVariant {lib : Lib} {f g : String} (h : keyCaseVariant lib f g)
    (mount : Mount) :
    sameOutcome lib (MountOpt.setField lib mount f) (MountOpt.setField lib mount g) := by
  obtain ⟨hkey, hval⟩ := h
  rcases strings.SplitN_two f with ⟨hf, _⟩ | ⟨k, v, hf, _, _⟩
  · have hvf : fieldValue f = none := by simp [fieldValue, hf]
    rcases strings.SplitN_two g with ⟨hg, _⟩ | ⟨k1, v1, hg, _, _⟩
    · have hk : lib.ToLower f = lib.ToLower g := by
        simpa [fieldKey, hf, hg] using hkey
      rw [setField_bare lib mount f hf, setField_bare lib mount g hg, hk]
      by_cases h1 : lib.ToLower g = "readonly" ∨ lib.ToLower g = "ro"
      · rw [if_pos h1, if_pos h1]
        exact Or.inl ⟨_, rfl, rfl⟩
      · rw [if_neg h1, if_neg h1]
        by_cases h2 : lib.ToLower g = "volume-nocopy"
        · rw [if_pos h2, if_pos h2]
          exact Or.inl ⟨_, rfl, rfl⟩
        · rw [if_neg h2, if_neg h2]
          exact Or.inr ⟨_, _, rfl, rfl, Or.inr ⟨f, g, ⟨hkey, hval⟩, Or.inl ⟨rfl, rfl⟩⟩⟩
    · exfalso
      rw [hvf] at hval
      simp [fieldValue, hg] at hval
  · have hvf : fieldValue f = some v := by simp [fieldValue, hf]
    rcases strings.SplitN_two g with ⟨hg, _⟩ | ⟨k1, v1, hg, _, _⟩
    · exfalso
      rw [hvf] at hval
      simp [fieldValue, hg] at hval
    · have hk : lib.ToLower k = lib.ToLower k1 := by
        simpa [fieldKey, hf, hg] using hkey
      have hv : v = v1 := by
        rw [hvf] at hval
        simpa [fieldValue, hg] using hval
      subst hv
      rw [setField_pair lib mount f k v hf, setField_pair lib mount g k1 v hg, hk]
      by_cases hrec : isRecognizedKey (lib.ToLower k1)
      · rw [setValue_recognized mount f g v hrec]
        cases hr : MountOpt.setValue lib mount g (lib.ToLower k1) v with
        | error e => exact Or.inr ⟨e, e, rfl, rfl, Or.inl rfl⟩
        | ok d => exact Or.inl ⟨d, rfl, rfl⟩
      · rw [setValue_unrecognized mount f v hrec, setValue_unrecognized mount g v hrec]
        exact Or.inr ⟨_, _, rfl, rfl,
          Or.inr ⟨f, g, ⟨hkey, hval⟩, Or.inr ⟨lib.ToLower k1, rfl, rfl⟩⟩⟩

/-- Two records whose fields differ, one by one, in the case of the key have the
same outcome in the loop, from every mount. -/
theorem setFields_keyCaseVariant {lib : Lib} {fs gs : List String}
    (h : List.Forall₂ (keyCaseVariant lib) fs gs) :
    ∀ mount : Mount,
      sameOutcome lib (MountOpt.setFields lib mount fs) (MountOpt.setFields lib mount gs) := by
  induction h with
  | nil =>
    intro mount
    exact Or.inl ⟨mount, by rw [MountOpt.setFields], by rw [MountOpt.setFields]⟩
  | cons hfg _ ih =>
    intro mount
    rcases setField_keyCaseVariant hfg mount with ⟨d, h1, h2⟩ | ⟨e, e1, h1, h2, hk⟩
    · rw [setFields_cons_of_ok _ h1, setFields_cons_of_ok _ h2]
      exact ih d
    · rw [setFields_cons_of_error _ h1, setFields_cons_of_error _ h2]
      exact Or.inr ⟨e, e1, rfl, rfl, hk⟩

/-- Outcome of `parse` once the record is read and a field fails: the error of the loop. -/
theorem parse_fields_error {lib : Lib} {value e : String} {fields : List String}
    (hcsv : lib.csvRead value = .ok fields)
    (hfields : MountOpt.setFields lib { Mount.zero with Type_ := TypeVolume } fields
      = .error e) :
    MountOpt.parse lib value = .error e := by
  unfold MountOpt.parse
  rw [hcsv]
  simp only
  rw [hfields]

/-- The `switch` of `Set` on the key `volume-driver`. -/
theorem setValue_volume_driver (lib : Lib) (mount : Mount) (field value : String) :
    MountOpt.setValue lib mount field "volume-driver" value =
      .ok { mount with
        VolumeOptions := some { (MountOpt.volumeOptions mount).1 with
          DriverConfig := some { (MountOpt.volumeOptions mount).2 with Name := value } } } := by
  unfold MountOpt.setValue
  rw [if_neg (by decide), if_neg (by decide), if_neg (by decide), if_neg (by decide),
    if_neg (by decide), if_neg (by decide), if_neg (by decide), if_neg (by decide),
    if_neg (by decide), if_pos (by decide)]

/-- C15: when two records are read whose fields differ, one by one, at most in the
letter case of the key part, `Set` succeeds on both or on neither, leaves the
same accumulator (so appends the same descriptor), and an error of the one is
matched by an error of the same kind of the other; and a field `k=v` that is
processed stores `v` as it is written, not lower-cased, for the keys source,
src, target, dst, destination, volume-label, volume-driver and volume-opt. -/
theorem C15_key_case_insensitive (lib : Lib) (m : MountOpt) (value value1 : String)
    (fs gs : List String) (hcsv : lib.csvRead value = .ok fs)
    (hcsv1 : lib.csvRead value1 = .ok gs) (hvar : List.Forall₂ (keyCaseVariant lib) fs gs) :
    ((MountOpt.Set lib m value).2 = none ↔ (MountOpt.Set lib m value1).2 = none) ∧
    (MountOpt.Set lib m value).1 = (MountOpt.Set lib m value1).1 ∧
    (∀ e, (MountOpt.Set lib m value).2 = some e →
      ∃ e1, (MountOpt.Set lib m value1).2 = some e1 ∧ sameErrorKind lib e e1) ∧
    (∀ (mount d : Mount) (field k v : String), strings.SplitN field '=' 2 = [k, v] →
      MountOpt.setField lib mount field = .ok d →
      (isSourceKey (lib.ToLower k) → d.Source = v) ∧
      (isTargetKey (lib.ToLower k) → d.Target = v) ∧
      (lib.ToLower k = "volume-label" → labelsOf d.VolumeOptions
        = MountOpt.setValueOnMap (labelsOf mount.VolumeOptions) v) ∧
      (lib.ToLower k = "volume-driver" → ∃ vo dc, d.VolumeOptions = some vo ∧
        vo.DriverConfig = some dc ∧ dc.Name = v) ∧
      (lib.ToLower k = "volume-opt" → driverOptionsOf d.VolumeOptions
        = MountOpt.setValueOnMap (driverOptionsOf mount.VolumeOptions) v)) := by
  have hout : (∃ d, MountOpt.parse lib value = .ok d ∧ MountOpt.parse lib value1 = .ok d) ∨
      ∃ e e1, MountOpt.parse lib value = .error e ∧ MountOpt.parse lib value1 = .error e1 ∧
        sameErrorKind lib e e1 := by
    rcases setFields_keyCaseVariant hvar { Mount.zero with Type_ := TypeVolume } with
      ⟨d, h1, h2⟩ | ⟨e, e1, h1, h2, hk⟩
    · rw [parse_eq_validate hcsv h1, parse_eq_validate hcsv1 h2]
      cases hv : MountOpt.validate d with
      | error e => exact Or.inr ⟨e, e, rfl, rfl, Or.inl rfl⟩
      | ok d1 => exact Or.inl ⟨d1, rfl, rfl⟩
    · exact Or.inr ⟨e, e1, parse_fields_error hcsv h1, parse_fields_error hcsv1 h2, hk⟩
  refine ⟨?_, ?_, ?_, ?_⟩
  · unfold MountOpt.Set
    rcases hout with ⟨d, h1, h2⟩ | ⟨e, e1, h1, h2, _⟩ <;> simp [h1, h2]
  · unfold MountOpt.Set
    rcases hout with ⟨d, h1, h2⟩ | ⟨e, e1, h1, h2, _⟩ <;> rw [h1, h2]
  · intro e he
    unfold MountOpt.Set at he ⊢
    rcases hout with ⟨d, h1, h2⟩ | ⟨e0, e1, h1, h2, hk⟩
    · rw [h1] at he
      cases he
    · rw [h1] at he
      rw [h2]
      cases he
      exact ⟨e1, rfl, hk⟩
  · intro mount d field k v hs hf
    have hkey : fieldKey lib field = lib.ToLower k := by simp [fieldKey, hs]
    have hval : (fieldValue field).getD "" = v := by simp [fieldValue, hs]
    have heff := setField_ok_effect hf
    have hfr := setField_ok_frame hf
    rw [hkey, hval] at heff hfr
    refine ⟨?_, ?_, ?_, ?_, ?_⟩
    · intro hk
      rw [hfr.1, if_pos hk]
    · intro hk
      rw [heff.2.1, if_pos hk]
    · intro hk
      rw [hfr.2.2.2.2.2.1, if_pos hk]
    · intro hk
      rw [setField_pair lib mount field k v hs, hk, setValue_volume_driver] at hf
      cases hf
      exact ⟨_, _, rfl, rfl, rfl⟩
    · intro hk
      rw [hfr.2.2.2.2.2.2, if_pos hk]

/-- C15 at the records `TYPE=bind,Source=/A,dst=/b` and `type=bind,source=/A,DST=/b`:
the same descriptor, with the source `/A` as written. -/
theorem C15_key_case_insensitive_witness :
    MountOpt.Set (goLib noRAM) ⟨[]⟩ "TYPE=bind,Source=/A,dst=/b"
      = (⟨[{ Mount.zero with Type_ := "bind", Source := "/A", Target := "/b" }]⟩, none) ∧
    (MountOpt.Set (goLib noRAM) ⟨[]⟩ "TYPE=bind,Source=/A,dst=/b").1
      = (MountOpt.Set (goLib noRAM) ⟨[]⟩ "type=bind,source=/A,DST=/b").1 :=
  ⟨by decide,
   (C15_key_case_insensitive (goLib noRAM) ⟨[]⟩ "TYPE=bind,Source=/A,dst=/b"
      "type=bind,source=/A,DST=/b" ["TYPE=bind", "Source=/A", "dst=/b"]
      ["type=bind", "source=/A", "DST=/b"] (by decide) (by decide)
      (List.Forall₂.cons (by decide) (List.Forall₂.cons (by decide)
        (List.Forall₂.cons (by decide) List.Forall₂.nil)))).2.1⟩

/-! ## C16: the defaults -/

/-- C16: when the record is read and `Set` succeeds, the appended descriptor has
the kind `volume` if no field has the key type, the empty source if no field
has the key source or src, `ReadOnly` false if no field has the key readonly
or ro, `MaxBandwidth` 0 if no field has the key max-bandwidth and `MaxIOps` 0
if no field has the key max-iops. -/
theorem C16_defaults (lib : Lib) (m : MountOpt) (value : String) (fields : List String)
    (hcsv : lib.csvRead value = .ok fields) (hok : (MountOpt.Set lib m value).2 = none) :
    ∃ d, (MountOpt.Set lib m value).1.Value = m.Value ++ [d] ∧
      ((∀ g ∈ fields, fieldKey lib g ≠ "type") → d.Type_ = "volume") ∧
      ((∀ g ∈ fields, ¬ isSourceKey (fieldKey lib g)) → d.Source = "") ∧
      ((∀ g ∈ fields, ¬ isReadOnlyKey (fieldKey lib g)) → d.ReadOnly = false) ∧
      ((∀ g ∈ fields, fieldKey lib g ≠ "max-bandwidth") → d.MaxBandwidth = 0) ∧
      ((∀ g ∈ fields, fieldKey lib g ≠ "max-iops") → d.MaxIOps = 0) := by
  obtain ⟨d, hfs, _, hs⟩ := Set_ok_fields hcsv hok
  refine ⟨d, by rw [hs]; rfl, ?_, ?_, ?_, ?_, ?_⟩
  · intro hno
    exact setFields_frame (fun mount : Mount => mount.Type_)
      (fun g => fieldKey lib g = "type")
      (fun mount d field h hn => by
        have := (setField_ok_effect h).1
        rw [if_neg hn] at this
        exact this) fields _ d hfs hno
  · intro hno
    exact setFields_frame (fun mount : Mount => mount.Source)
      (fun g => isSourceKey (fieldKey lib g))
      (fun mount d field h hn => by
        have := (setField_ok_frame h).1
        rw [if_neg hn] at this
        exact this) fields _ d hfs hno
  · intro hno
    exact setFields_frame (fun mount : Mount => mount.ReadOnly)
      (fun g => isReadOnlyKey (fieldKey lib g))
      (fun mount d field h hn => (setField_ok_frame h).2.1 hn) fields _ d hfs hno
  · intro hno
    exact setFields_frame (fun mount : Mount => mount.MaxBandwidth)
      (fun g => fieldKey lib g = "max-bandwidth")
      (fun mount d field h hn => (setField_ok_frame h).2.2.1 hn) fields _ d hfs hno
  · intro hno
    exact setFields_frame (fun mount : Mount => mount.MaxIOps)
      (fun g => fieldKey lib g = "max-iops")
      (fun mount d field h hn => (setField_ok_frame h).2.2.2.1 hn) fields _ d hfs hno

/-- C16 at the record `type=bind,source=/a,target=/b`: kind `bind`, source `/a`,
target `/b`, and `ReadOnly`, `MaxBandwidth` and `MaxIOps` at their defaults. -/
theorem C16_defaults_witness :
    MountOpt.Set (goLib noRAM) ⟨[]⟩ "type=bind,source=/a,target=/b"
      = (⟨[{ Type_ := "bind", Source := "/a", Target := "/b", ReadOnly := false,
             BindOptions := none, VolumeOptions := none, MaxBandwidth := 0,
             MaxIOps := 0 }]⟩, none) ∧
    ∃ d, (MountOpt.Set (goLib noRAM) ⟨[]⟩ "type=bind,source=/a,target=/b").1.Value
        = (MountOpt.mk []).Value ++ [d] ∧
      ((∀ g ∈ ["type=bind", "source=/a", "target=/b"], fieldKey (goLib noRAM) g ≠ "type")
        → d.Type_ = "volume") ∧
      ((∀ g ∈ ["type=bind", "source=/a", "target=/b"], ¬ isSourceKey (fieldKey (goLib noRAM) g))
        → d.Source = "") ∧
      ((∀ g ∈ ["type=bind", "source=/a", "target=/b"],
          ¬ isReadOnlyKey (fieldKey (goLib noRAM) g)) → d.ReadOnly = false) ∧
      ((∀ g ∈ ["type=bind", "source=/a", "target=/b"],
          fieldKey (goLib noRAM) g ≠ "max-bandwidth") → d.MaxBandwidth = 0) ∧
      ((∀ g ∈ ["type=bind", "source=/a", "target=/b"],
          fieldKey (goLib noRAM) g ≠ "max-iops") → d.MaxIOps = 0) :=
  ⟨by decide,
   C16_defaults (goLib noRAM) ⟨[]⟩ "type=bind,source=/a,target=/b"
     ["type=bind", "source=/a", "target=/b"] (by decide) (by decide)⟩

/-! ## C17: the method `String` -/

/-- The accumulating loop of `String.intercalate` gives the accumulator followed
by the separator and the joined rest. -/
theorem intercalate_go_eq_Join (sep : String) (rest : List String) :
    ∀ (acc b : String),
      String.intercalate.go acc sep (b :: rest) = acc ++ sep ++ strings.Join (b :: rest) sep := by
  induction rest with
  | nil =>
    intro acc b
    simp [String.intercalate.go, strings.Join]
  | cons c rest ih =>
    intro acc b
    rw [String.intercalate.go, ih, strings.Join]
    simp only [String.append_assoc]

/-- Go `strings.Join` is `String.intercalate`. -/
theorem Join_eq_intercalate (l : List String) (sep : String) :
    strings.Join l sep = sep.intercalate l := by
  cases l with
  | nil => rfl
  | cons a rest =>
    cases rest with
    | nil => simp [strings.Join, String.intercalate, String.intercalate.go]
    | cons b rest =>
      rw [String.intercalate, intercalate_go_eq_Join, strings.Join]

/-- C17: `String()` is the strings `<kind> <source> <target>` of the accumulated
descriptors, in their order, joined with a comma and a space: it is the empty
string for the empty accumulator, the string of the descriptor for a single
one, and the string of the first descriptor, a comma, a space and the
`String()` of the rest otherwise. -/
theorem C17_string_joins_descriptors (m : MountOpt) :
    MountOpt.String m = ", ".intercalate
      (m.values.map fun d => d.Type_ ++ " " ++ d.Source ++ " " ++ d.Target) ∧
    MountOpt.String ⟨[]⟩ = "" ∧
    (∀ d : Mount, MountOpt.String ⟨[d]⟩ = d.Type_ ++ " " ++ d.Source ++ " " ++ d.Target) ∧
    (∀ (d d1 : Mount) (rest : List Mount), MountOpt.String ⟨d :: d1 :: rest⟩
      = d.Type_ ++ " " ++ d.Source ++ " " ++ d.Target ++ ", "
        ++ MountOpt.String ⟨d1 :: rest⟩) := by
  refine ⟨?_, rfl, fun d => rfl, fun d d1 rest => ?_⟩
  · unfold MountOpt.String
    rw [Join_eq_intercalate]
  · unfold MountOpt.String
    simp only [List.map_cons, strings.Join]

/-- The method `String` on an accumulator with a bind mount and an anonymous volume. -/
theorem String_of_two_mounts :
    MountOpt.String ⟨[{ Mount.zero with Type_ := "bind", Source := "/a", Target := "/b" },
      { Mount.zero with Type_ := "volume", Target := "/c" }]⟩ = "bind /a /b, volume  /c" := by
  decide

/-! ## C18: the order of the final checks -/

/-- The final checks return the missing-target error exactly for a mount with a
kind and without a target. -/
theorem validate_target_required (mount : Mount) :
    MountOpt.validate mount = .error "target is required"
      ↔ mount.Type_ ≠ "" ∧ mount.Target = "" := by
  unfold MountOpt.validate
  by_cases h1 : mount.Type_ = ""
  · rw [if_pos h1]
    constructor
    · intro h
      exact absurd (Except.error.inj h) (by decide)
    · intro h
      exact absurd h1 h.1
  · rw [if_neg h1]
    by_cases h2 : mount.Target = ""
    · rw [if_pos h2]
      exact ⟨fun _ => ⟨h1, h2⟩, fun _ => rfl⟩
    · rw [if_neg h2]
      constructor
      · intro h
        exfalso
        split_ifs at h
        · exact absurd (Except.error.inj h) (by decide)
        · exact absurd (Except.error.inj h) (by decide)
      · intro h
        exact absurd h.2 h2

/-- No error of the loop is the missing-target error or the missing-type error. -/
theorem setFields_error_ne {lib : Lib} {fields : List String} {mount : Mount} {e : String}
    (h : MountOpt.setFields lib mount fields = .error e) :
    e ≠ "target is required" ∧ e ≠ "type is required" := by
  obtain ⟨field, _, mount1, hf⟩ := setFields_error_mem h
  constructor <;> intro he <;> rw [he] at hf <;>
    rcases setField_error_head hf with h1 | h1 <;> exact absurd h1 (by decide)

/-- Outcome of `parse` when the CSV reader fails: the error of the reader. -/
theorem parse_csv_error {lib : Lib} {value err : String}
    (hcsv : lib.csvRead value = .error err) : MountOpt.parse lib value = .error err := by
  unfold MountOpt.parse
  rw [hcsv]

/-- C18: for every input on which the CSV reader does not itself fail with the
message `target is required`, `Set` fails with the `target is required` error
exactly when the record is read, every field is processed without error, the
final kind is non-empty and the final target is empty; in particular it fails
with that error, and not with a conflict error, when moreover the final kind
is `bind` and a `volume-*` field appeared, or the final kind is `volume` and a
bind-propagation field appeared. -/
theorem C18_target_required_iff (lib : Lib) (m : MountOpt) (value : String)
    (hreader : ∀ err, lib.csvRead value = .error err → err ≠ "target is required") :
    ((MountOpt.Set lib m value).2 = some "target is required" ↔
      ∃ fields, lib.csvRead value = .ok fields ∧
        (∃ mount, MountOpt.setFields lib { Mount.zero with Type_ := TypeVolume } fields
          = .ok mount) ∧
        finalKind lib fields ≠ "" ∧ finalTarget lib fields = "") ∧
    (∀ fields, lib.csvRead value = .ok fields →
      (∃ mount, MountOpt.setFields lib { Mount.zero with Type_ := TypeVolume } fields
          = .ok mount) →
      finalTarget lib fields = "" →
      (finalKind lib fields = "bind" ∧ hasVolumeField lib fields) ∨
        (finalKind lib fields = "volume" ∧ hasBindField lib fields) →
      MountOpt.Set lib m value = (m, some "target is required")) := by
  have hback : ∀ fields, lib.csvRead value = .ok fields →
      (∃ mount, MountOpt.setFields lib { Mount.zero with Type_ := TypeVolume } fields
        = .ok mount) → finalKind lib fields ≠ "" → finalTarget lib fields = "" →
      MountOpt.Set lib m value = (m, some "target is required") := by
    rintro fields hcsv ⟨mount, hfs⟩ hk ht
    obtain ⟨hkind, htarget, _, _⟩ := setFields_initial_effect hfs
    have hv := (validate_target_required mount).mpr ⟨hkind ▸ hk, htarget.trans ht⟩
    unfold MountOpt.Set
    rw [parse_eq_validate hcsv hfs, hv]
  constructor
  · constructor
    · intro h
      have hp := ((Set_error_iff lib m value _).mp h).1
      cases hcsv : lib.csvRead value with
      | error err =>
        rw [parse_csv_error hcsv] at hp
        exact absurd (Except.error.inj hp) (hreader err hcsv)
      | ok fields =>
        refine ⟨fields, rfl, ?_⟩
        cases hfs : MountOpt.setFields lib { Mount.zero with Type_ := TypeVolume } fields with
        | error e =>
          rw [parse_fields_error hcsv hfs] at hp
          exact absurd (Except.error.inj hp) (setFields_error_ne hfs).1
        | ok mount =>
          rw [parse_eq_validate hcsv hfs] at hp
          obtain ⟨hkind, htarget, _, _⟩ := setFields_initial_effect hfs
          obtain ⟨h1, h2⟩ := (validate_target_required mount).mp hp
          exact ⟨⟨mount, rfl⟩, hkind ▸ h1, htarget ▸ h2⟩
    · rintro ⟨fields, hcsv, hfs, hk, ht⟩
      rw [hback fields hcsv hfs hk ht]
  · intro fields hcsv hfs ht hconf
    apply hback fields hcsv hfs _ ht
    rcases hconf with ⟨hk, _⟩ | ⟨hk, _⟩ <;> rw [hk] <;> decide

/-- C18 at the record `type=bind,volume-label=x`, which has no target and whose
options conflict with the kind. -/
theorem C18_target_required_iff_witness :
    MountOpt.Set (goLib noRAM) ⟨[Mount.zero]⟩ "type=bind,volume-label=x"
      = (⟨[Mount.zero]⟩, some "target is required") :=
  (C18_target_required_iff (goLib noRAM) ⟨[Mount.zero]⟩ "type=bind,volume-label=x"
    (fun err h => by
      have hread : (goLib noRAM).csvRead "type=bind,volume-label=x"
          = .ok ["type=bind", "volume-label=x"] := by decide
      rw [hread] at h
      cases h)).2
    ["type=bind", "volume-label=x"] (by decide)
    ⟨{ Type_ := "bind", Source := "", Target := "", ReadOnly := false, BindOptions := none,
       VolumeOptions := some
         { NoCopy := false, Labels := [("x", "")],
           DriverConfig := some { Name := "", Options := none } },
       MaxBandwidth := 0, MaxIOps := 0 }, by decide⟩
    (by decide) (Or.inl (by decide))

/-! ## C19: the presence of the option structures -/

/-- C19: when the record is read and `Set` succeeds, the appended descriptor has
`VolumeOptions` populated exactly when a field with the key volume-nocopy,
volume-label, volume-driver or volume-opt appears in the record, and
`BindOptions` populated exactly when a bind-propagation field appears; the
last bind-propagation field is then `k=v` with no `=` in `k`, and the
propagation is `v` lower-cased. -/
theorem C19_option_structures (lib : Lib) (m : MountOpt) (value : String)
    (fields : List String) (hcsv : lib.csvRead value = .ok fields)
    (hok : (MountOpt.Set lib m value).2 = none) :
    ∃ d, (MountOpt.Set lib m value).1.Value = m.Value ++ [d] ∧
      (d.VolumeOptions ≠ none ↔ hasVolumeField lib fields) ∧
      (d.BindOptions ≠ none ↔ hasBindField lib fields) ∧
      (∀ (pre post : List String) (f : String), fields = pre ++ f :: post →
        fieldKey lib f = "bind-propagation" →
        (∀ g ∈ post, fieldKey lib g ≠ "bind-propagation") →
        ∃ k v : String, f = k ++ "=" ++ v ∧ '=' ∉ k.data ∧
          d.BindOptions = some { Propagation := lib.ToLower v }) := by
  obtain ⟨d, hfs, _, hs⟩ := Set_ok_fields hcsv hok
  obtain ⟨_, _, hv, hb⟩ := setFields_initial_effect hfs
  refine ⟨d, by rw [hs]; rfl, hv, hb, ?_⟩
  intro pre post f hsplit hkey hlast
  rw [hsplit] at hfs
  obtain ⟨mount1, _, h1⟩ := setFields_append_ok hfs
  obtain ⟨mount2, hf, hpost⟩ := setFields_cons_ok h1
  have hreq : ¬ isReadOnlyKey (fieldKey lib f) ∧ fieldKey lib f ≠ "volume-nocopy" := by
    rw [hkey]
    decide
  obtain ⟨k, v, _, hkv, hk, _, hval⟩ := setField_ok_pair hf hreq
  refine ⟨k, v, hkv, hk, ?_⟩
  have hframe := setFields_frame (fun mount : Mount => mount.BindOptions)
    (fun g => fieldKey lib g = "bind-propagation")
    (fun mount d field h hn => by
      have := (setField_ok_frame h).2.2.2.2.1
      rw [if_neg hn] at this
      exact this) post mount2 d hpost hlast
  have h2 := (setField_ok_frame hf).2.2.2.2.1
  rw [if_pos hkey, hval] at h2
  exact hframe.trans h2

/-- C19 at the record `type=bind,target=/b,bind-propagation=Shared,bind-propagation=RSlave`. -/
theorem C19_option_structures_witness :
    MountOpt.Set (goLib noRAM) ⟨[]⟩
        "type=bind,target=/b,bind-propagation=Shared,bind-propagation=RSlave"
      = (⟨[{ Type_ := "bind", Source := "", Target := "/b", ReadOnly := false,
             BindOptions := some { Propagation := "rslave" }, VolumeOptions := none,
             MaxBandwidth := 0, MaxIOps := 0 }]⟩, none) ∧
    ∃ d, (MountOpt.Set (goLib noRAM) ⟨[]⟩
          "type=bind,target=/b,bind-propagation=Shared,bind-propagation=RSlave").1.Value
        = (MountOpt.mk []).Value ++ [d] ∧
      (d.VolumeOptions ≠ none ↔ hasVolumeField (goLib noRAM)
        ["type=bind", "target=/b", "bind-propagation=Shared", "bind-propagation=RSlave"]) ∧
      (d.BindOptions ≠ none ↔ hasBindField (goLib noRAM)
        ["type=bind", "target=/b", "bind-propagation=Shared", "bind-propagation=RSlave"]) ∧
      (∀ (pre post : List String) (f : String),
        ["type=bind", "target=/b", "bind-propagation=Shared", "bind-propagation=RSlave"]
          = pre ++ f :: post →
        fieldKey (goLib noRAM) f = "bind-propagation" →
        (∀ g ∈ post, fieldKey (goLib noRAM) g ≠ "bind-propagation") →
        ∃ k v : String, f = k ++ "=" ++ v ∧ '=' ∉ k.data ∧
          d.BindOptions = some { Propagation := (goLib noRAM).ToLower v }) :=
  ⟨by decide,
   C19_option_structures (goLib noRAM) ⟨[]⟩
     "type=bind,target=/b,bind-propagation=Shared,bind-propagation=RSlave"
     ["type=bind", "target=/b", "bind-propagation=Shared", "bind-propagation=RSlave"]
     (by decide) (by decide)⟩

/-! ## C20: `max-iops` and the conversion to `uint64` -/

/-- A non-empty string of decimal digits whose value is `2^63` or more is rejected
by `Atoi`. -/
theorem strconv.Atoi_digits_overflow (ds : List Char) (hne : ds ≠ [])
    (hd : ds.all Char.isDigit = true) (hr : 2 ^ 63 ≤ strconv.digitsValue ds) :
    strconv.Atoi (String.mk ds) = none := by
  cases ds with
  | nil => exact absurd rfl hne
  | cons c cs =>
    have hc : c.isDigit = true := by
      simp only [List.all_cons, Bool.and_eq_true] at hd
      exact hd.1
    have hplus : c ≠ '+' := by
      intro h
      rw [h] at hc
      exact absurd hc (by decide)
    have hminus : c ≠ '-' := by
      intro h
      rw [h] at hc
      exact absurd hc (by decide)
    unfold strconv.Atoi
    have hm : (match (String.mk (c :: cs)).data with
        | '+' :: rest => (false, rest)
        | '-' :: rest => (true, rest)
        | rest => (false, rest)) = (false, c :: cs) := by
      split
      · rename_i heq
        simp only [List.cons.injEq] at heq
        exact absurd heq.1 hplus
      · rename_i heq
        simp only [List.cons.injEq] at heq
        exact absurd heq.1 hminus
      · rfl
    simp only [hm]
    rw [if_neg (by simp [hd]), if_pos ⟨trivial, hr⟩]

/-- The conversion `uint64(n)` of a negative 64-bit integer adds `2^64`. -/
theorem uint64_of_neg {n : Int} (h0 : n < 0) (h1 : -(2 ^ 63) ≤ n) :
    uint64 n = (2 ^ 64 + n).toNat := by
  have h : n % 2 ^ 64 = 2 ^ 64 + n := by
    have h2 := @Int.add_emod_self n (2 ^ 64)
    rw [← h2, Int.emod_eq_of_lt (by omega) (by omega)]
    omega
  unfold uint64
  rw [h]

/-- C20: for a field `k=v` whose key lower-cases to `max-iops`: when `Atoi` reads
`v` as the integer `n`, of either sign, the field is accepted and sets
`MaxIOps` to `n` modulo `2^64`, which is `2^64 + n` for a negative `n`; when
`v` is a string of decimal digits with value `2^63` or more, the field is
rejected with the invalid-value error, also when the value is below `2^64`. -/
theorem C20_max_iops_wraps (lib : Lib) (mount : Mount) (field k v : String)
    (hs : strings.SplitN field '=' 2 = [k, v]) (hkey : lib.ToLower k = "max-iops") :
    (∀ n : Int, strconv.Atoi v = some n →
      MountOpt.setField lib mount field = .ok { mount with MaxIOps := (n % 2 ^ 64).toNat }) ∧
    (∀ n : Int, strconv.Atoi v = some n → n < 0 →
      MountOpt.setField lib mount field = .ok { mount with MaxIOps := (2 ^ 64 + n).toNat }) ∧
    (∀ ds : List Char, v = String.mk ds → ds ≠ [] → ds.all Char.isDigit = true →
      2 ^ 63 ≤ strconv.digitsValue ds →
      MountOpt.setField lib mount field = .error ("invalid value for max-iops: " ++ v)) := by
  have hf := setField_pair lib mount field k v hs
  rw [hkey, setValue_max_iops] at hf
  have hacc : ∀ n : Int, strconv.Atoi v = some n →
      MountOpt.setField lib mount field
        = .ok { mount with MaxIOps := (n % 2 ^ 64).toNat } := by
    intro n hn
    rw [hf, hn]
    rfl
  refine ⟨hacc, ?_, ?_⟩
  · intro n hn hneg
    rw [hacc n hn]
    have h := uint64_of_neg hneg (strconv.Atoi_range hn).1
    unfold uint64 at h
    rw [h]
  · intro ds hv hne hd hr
    rw [hf, hv, strconv.Atoi_digits_overflow ds hne hd hr]

/-- C20 at the fields `max-iops=-1`, which sets `MaxIOps` to `2^64 - 1`, and
`max-iops=9223372036854775808`, which is rejected. -/
theorem C20_max_iops_wraps_witness :
    MountOpt.setField (goLib noRAM) Mount.zero "max-iops=-1"
      = .ok { Mount.zero with MaxIOps := 18446744073709551615 } ∧
    MountOpt.setField (goLib noRAM) Mount.zero "max-iops=9223372036854775808"
      = .error "invalid value for max-iops: 9223372036854775808" :=
  ⟨((C20_max_iops_wraps (goLib noRAM) Mount.zero "max-iops=-1" "max-iops" "-1"
      (by decide) (by decide)).2.1 (-1) (by decide) (by decide)).trans (by decide),
   (C20_max_iops_wraps (goLib noRAM) Mount.zero "max-iops=9223372036854775808" "max-iops"
      "9223372036854775808" (by decide) (by decide)).2.2
      "9223372036854775808".data rfl (by decide) (by decide) (by decide)⟩
